import Mathlib

/-!
Packet pool and advertisement codec of `mesh_packet.c`.

A shallow embedding of `src/nRF51/rbc_mesh/src/mesh_packet.c`.

* Bytes, 16-bit words and addresses are natural numbers; stores into a
  `uint8_t` reduce modulo `2^8`, the `uint32_t` casts of the index
  computation reduce modulo `2^32`.
* Arrays (`g_packet_refs`, a packet's `payload`) are lists.  Every indexed
  access is checked against the extent of the array: an access outside it
  ends the run with `Fault.out_of_bounds`.
* A call that aborts (`APP_ERROR_CHECK` on a non-success code) ends the run
  with `Fault.app_error`.
* Pointers to packets are 32-bit addresses; pointers into a payload are byte
  offsets from `&payload[0]`; a pointer argument that may be `NULL` is an
  `Option`.
* 16-bit fields are stored little-endian, the byte order of the nRF51.
-/

namespace MeshPacket

/-! ## Results -/

/-- Modelled from the spec: the status codes of the SDK header `nrf_error.h`,
which is not under `src/`.  Only the five codes the file names are told
apart; `NRF_ERROR_OTHER` stands for any other code the address provider may
hand back. -/
inductive nrf_code where
  | NRF_SUCCESS
  | NRF_ERROR_NO_MEM
  | NRF_ERROR_NULL
  | NRF_ERROR_INVALID_LENGTH
  | NRF_ERROR_INVALID_DATA
  | NRF_ERROR_OTHER (code : Nat)
  deriving DecidableEq, Repr

/-- Abnormal ends of a run. -/
inductive Fault where
  /-- An indexed access outside the extent of the array. -/
  | out_of_bounds
  /-- A dereference of `NULL`. -/
  | null_deref
  /-- The handler behind `APP_ERROR_CHECK` was entered with this code. -/
  | app_error (code : nrf_code)
  /-- The iteration budget of a loop model was used up. -/
  | out_of_fuel
  deriving DecidableEq, Repr

open nrf_code

/-- Modelled from the spec: `APP_ERROR_CHECK` of the SDK header `app_error.h`,
which is not under `src/`: the error sink for unrecoverable faults.  A code
other than `NRF_SUCCESS` is fatal. -/
def APP_ERROR_CHECK (code : nrf_code) : Except Fault Unit :=
  if code = NRF_SUCCESS then .ok () else .error (.app_error code)

/-! ## Constants of `mesh_packet.h` -/

/-- Modelled from the spec: `BLE_ADV_PACKET_PAYLOAD_MAX_LENGTH`, the capacity
of the payload buffer (the header that defines it is not under `src/`). -/
def BLE_ADV_PACKET_PAYLOAD_MAX_LENGTH : Nat := 31

/-- Modelled from the spec: `RBC_MESH_VALUE_MAX_LEN`, the largest data length
of an application record. -/
def RBC_MESH_VALUE_MAX_LEN : Nat := 23

/-- Modelled from the spec: `MESH_PACKET_ADV_OVERHEAD`, the bytes a record's
length field counts besides the data: type tag, magic, handle, version. -/
def MESH_PACKET_ADV_OVERHEAD : Nat := 1 + 2 + 2 + 2

/-- Modelled from the spec: `BLE_GAP_ADDR_LEN`, the size of a device
address. -/
def BLE_GAP_ADDR_LEN : Nat := 6

/-- Modelled from the spec: `MESH_PACKET_OVERHEAD`, the header length of a
packet with an empty record: address, length byte, record overhead. -/
def MESH_PACKET_OVERHEAD : Nat := BLE_GAP_ADDR_LEN + 1 + MESH_PACKET_ADV_OVERHEAD

/-- Modelled from the spec: `sizeof(mesh_adv_data_t)`, the record type
declared in `mesh_packet.h`: length, type tag, magic, handle, version and
`data[RBC_MESH_VALUE_MAX_LEN]`. -/
def sizeof_mesh_adv_data_t : Nat := 1 + 1 + 2 + 2 + 2 + RBC_MESH_VALUE_MAX_LEN

/-- The values `mesh_packet.h` and the linker fix and the source only
names. -/
structure Config where
  /-- Number of slots of `g_packet_pool` and of `g_packet_refs`. -/
  MESH_PACKET_POOL_SIZE : Nat
  /-- The address `&g_packet_pool[0]`. -/
  pool_addr : Nat
  /-- The value of `sizeof(mesh_packet_t)`. -/
  sizeof_mesh_packet_t : Nat
  /-- The type tag of the application record. -/
  MESH_ADV_DATA_TYPE : Nat
  /-- The 16-bit magic of the application record. -/
  MESH_UUID : Nat
  /-- The PDU type of a non-connectable advertisement. -/
  BLE_PACKET_TYPE_ADV_NONCONN_IND : Nat
  /-- The handle value that stands for "no handle". -/
  RBC_MESH_INVALID_HANDLE : Nat
  deriving DecidableEq, Repr

/-! ## Checked array access -/

/-- Read `buf[i]`. -/
def rd (buf : List Nat) (i : Nat) : Except Fault Nat :=
  match buf[i]? with
  | some b => .ok b
  | none => .error .out_of_bounds

/-- Store `buf[i] = v`. -/
def wr (buf : List Nat) (i v : Nat) : Except Fault (List Nat) :=
  if i < buf.length then .ok (buf.set i v) else .error .out_of_bounds

/-- Read the little-endian `uint16_t` at `buf[i], buf[i+1]`. -/
def rd16 (buf : List Nat) (i : Nat) : Except Fault Nat := do
  let lo ← rd buf i
  let hi ← rd buf (i + 1)
  pure (lo + 256 * hi)

/-- Store the `uint16_t` `v` little-endian at `buf[i], buf[i+1]`. -/
def wr16 (buf : List Nat) (i v : Nat) : Except Fault (List Nat) := do
  let buf ← wr buf i (v % 256)
  wr buf (i + 1) (v / 256 % 256)

/-- `memcpy(&dst[off], src, n)`: `n` bytes, taken from the front of `src`. -/
def memcpy (dst : List Nat) (off : Nat) : List Nat → Nat → Except Fault (List Nat)
  | _, 0 => .ok dst
  | [], _ + 1 => .error .out_of_bounds
  | b :: bs, n + 1 => do
    let dst ← wr dst off b
    memcpy dst (off + 1) bs n

/-! ## The pool: `g_packet_refs` -/

/-- The address `&g_packet_pool[i]`. -/
def slot_ptr (cfg : Config) (i : Nat) : Nat :=
  cfg.pool_addr + i * cfg.sizeof_mesh_packet_t

/-- Loop of `mesh_packet_init`: `k` iterations are left, the counter is
`i`. -/
def mesh_packet_init_loop (refs : List Nat) : Nat → Nat → Except Fault (List Nat)
  | 0, _ => .ok refs
  | k + 1, i => do
    let refs ← wr refs i 0
    mesh_packet_init_loop refs k (i + 1)

/-- `mesh_packet_init`: the new content of `g_packet_refs`. -/
def mesh_packet_init (cfg : Config) (refs : List Nat) : Except Fault (List Nat) :=
  mesh_packet_init_loop refs cfg.MESH_PACKET_POOL_SIZE 0

/-- Loop of `mesh_packet_acquire`: `k` iterations are left, the counter is
`i`. -/
def mesh_packet_acquire_loop (cfg : Config) (refs : List Nat) :
    Nat → Nat → Except Fault (Option Nat × List Nat)
  | 0, _ => .ok (none, refs)
  | k + 1, i => do
    let c ← rd refs i
    if c = 0 then
      let refs ← wr refs i 1
      pure (some (slot_ptr cfg i), refs)
    else
      mesh_packet_acquire_loop cfg refs k (i + 1)

/-- `mesh_packet_acquire`.  The result `(some a, refs)` is the return value
`true` with `*pp_packet = a`; `(none, refs)` is the return value `false`,
with `*pp_packet` not written. -/
def mesh_packet_acquire (cfg : Config) (refs : List Nat) :
    Except Fault (Option Nat × List Nat) :=
  mesh_packet_acquire_loop cfg refs cfg.MESH_PACKET_POOL_SIZE 0

/-- The index both reference-count functions compute from the pointer:
`((uint32_t) p_packet - (uint32_t) &g_packet_pool[0]) / sizeof(mesh_packet_t)`. -/
def packet_index (cfg : Config) (p_packet : Nat) : Nat :=
  ((p_packet % 2 ^ 32 + 2 ^ 32 - cfg.pool_addr % 2 ^ 32) % 2 ^ 32) / cfg.sizeof_mesh_packet_t

/-- `mesh_packet_ref_count_inc`: return value and new `g_packet_refs`. -/
def mesh_packet_ref_count_inc (cfg : Config) (refs : List Nat) (p_packet : Nat) :
    Except Fault (Bool × List Nat) :=
  let index := packet_index cfg p_packet
  if index > cfg.MESH_PACKET_POOL_SIZE then
    .ok (false, refs)
  else do
    let c ← rd refs index
    let refs ← wr refs index ((c + 1) % 256)
    if (c + 1) % 256 = 0 then
      APP_ERROR_CHECK NRF_ERROR_NO_MEM
    pure (true, refs)

/-- `mesh_packet_ref_count_dec`: return value and new `g_packet_refs`. -/
def mesh_packet_ref_count_dec (cfg : Config) (refs : List Nat) (p_packet : Nat) :
    Except Fault (Bool × List Nat) :=
  let index := packet_index cfg p_packet
  if index > cfg.MESH_PACKET_POOL_SIZE then
    .ok (false, refs)
  else do
    let c ← rd refs index
    if c = 0 then
      pure (false, refs)
    else
      let refs ← wr refs index ((c - 1) % 256)
      pure (true, refs)

/-! ## Packets -/

/-- The fields of `ble_packet_header_t` the file uses. -/
structure ble_packet_header_t where
  type : Nat
  addr_type : Nat
  length : Nat
  deriving DecidableEq, Repr

/-- The packet `mesh_packet_t`: header, address, payload. -/
structure mesh_packet_t where
  header : ble_packet_header_t
  addr : List Nat
  payload : List Nat
  deriving DecidableEq, Repr

/-- The address record `ble_gap_addr_t` of the local-address provider. -/
structure ble_gap_addr_t where
  addr_type : Nat
  addr : List Nat
  deriving DecidableEq, Repr

/-- `mesh_packet_set_local_addr`.  The argument `provider` is what
`sd_ble_gap_address_get` hands back: its status and the address record it
filled.  The build without `SOFTDEVICE_PRESENT` reads the same two values
from `NRF_FICR` and is the case of a provider whose status is
`NRF_SUCCESS`.  The copy of the `BLE_GAP_ADDR_LEN` address bytes replaces
the whole `addr` array. -/
def mesh_packet_set_local_addr (provider : nrf_code × ble_gap_addr_t)
    (p_packet : mesh_packet_t) : nrf_code × mesh_packet_t :=
  let error_code := provider.1
  let my_addr := provider.2
  if error_code ≠ NRF_SUCCESS then
    (error_code, p_packet)
  else
    (NRF_SUCCESS,
      { p_packet with
        header := { p_packet.header with addr_type := my_addr.addr_type }
        addr := my_addr.addr })

/-- Loop of `mesh_packet_adv_data_get`; `off` is the byte offset of
`p_mesh_adv_data` from `&payload[0]`.  The cursor has type
`mesh_adv_data_t*`, so `p_mesh_adv_data += adv_data_length + 1` moves it by
that many records of `sizeof(mesh_adv_data_t)` bytes.  The result `none` is
`NULL`, leaving the function; `some off` leaves the loop. -/
def mesh_packet_adv_data_get_loop (cfg : Config) (payload : List Nat) :
    Nat → Nat → Except Fault (Option Nat)
  | 0, _ => .error .out_of_fuel
  | fuel + 1, off => do
    let adv_data_type ← rd payload (off + 1)
    let differs ←
      if adv_data_type ≠ cfg.MESH_ADV_DATA_TYPE then pure true
      else do
        let mesh_uuid ← rd16 payload (off + 2)
        pure (decide (mesh_uuid ≠ cfg.MESH_UUID))
    if differs then
      let adv_data_length ← rd payload off
      let off := off + (adv_data_length + 1) * sizeof_mesh_adv_data_t
      if off ≥ BLE_ADV_PACKET_PAYLOAD_MAX_LENGTH then
        pure none
      else
        mesh_packet_adv_data_get_loop cfg payload fuel off
    else
      pure (some off)

/-- `mesh_packet_adv_data_get`: `none` is `NULL`, `some off` is the pointer
`&payload[off]`. -/
def mesh_packet_adv_data_get (cfg : Config) (p_packet : Option mesh_packet_t) :
    Except Fault (Option Nat) :=
  match p_packet with
  | none => pure none
  | some p => do
    let r ← mesh_packet_adv_data_get_loop cfg p.payload
      (BLE_ADV_PACKET_PAYLOAD_MAX_LENGTH + 1) 0
    match r with
    | none => pure none
    | some off =>
      let adv_data_length ← rd p.payload off
      if adv_data_length > MESH_PACKET_ADV_OVERHEAD + RBC_MESH_VALUE_MAX_LEN then
        pure none
      else
        pure (some off)

/-- `mesh_packet_handle_get`. -/
def mesh_packet_handle_get (cfg : Config) (p_packet : Option mesh_packet_t) :
    Except Fault Nat := do
  let p_adv_data ← mesh_packet_adv_data_get cfg p_packet
  match p_adv_data, p_packet with
  | some off, some p => rd16 p.payload (off + 4)
  | _, _ => pure cfg.RBC_MESH_INVALID_HANDLE

/-- `mesh_packet_build`: the status and the packet behind `p_packet`
afterwards.  `data = none` is a `NULL` data pointer. -/
def mesh_packet_build (cfg : Config) (provider : nrf_code × ble_gap_addr_t)
    (p_packet : Option mesh_packet_t) (handle version : Nat)
    (data : Option (List Nat)) (length : Nat) :
    Except Fault (nrf_code × Option mesh_packet_t) :=
  match p_packet with
  | none => pure (NRF_ERROR_NULL, none)
  | some p =>
    if length > RBC_MESH_VALUE_MAX_LEN then
      pure (NRF_ERROR_INVALID_LENGTH, some p)
    else do
      let p := (mesh_packet_set_local_addr provider p).2
      let header := { p.header with
        length := (MESH_PACKET_OVERHEAD + length) % 256
        type := cfg.BLE_PACKET_TYPE_ADV_NONCONN_IND }
      let payload ← wr p.payload 0 ((MESH_PACKET_ADV_OVERHEAD + length) % 256)
      let payload ← wr payload 1 (cfg.MESH_ADV_DATA_TYPE % 256)
      let payload ← wr16 payload 2 cfg.MESH_UUID
      let payload ← wr16 payload 4 handle
      let payload ← wr16 payload 6 version
      let payload ←
        match data with
        | some bytes => if length > 0 then memcpy payload 8 bytes length else pure payload
        | none => pure payload
      pure (NRF_SUCCESS, some { p with header := header, payload := payload })

/-- Copy loop of `mesh_packet_adv_data_sanitize`: `k` iterations are left,
the counter is `i`, the record starts at offset `src`. -/
def mesh_packet_adv_data_sanitize_loop (src : Nat) (payload : List Nat) :
    Nat → Nat → Except Fault (List Nat)
  | 0, _ => .ok payload
  | k + 1, i => do
    let b ← rd payload (src + i)
    let payload ← wr payload i b
    mesh_packet_adv_data_sanitize_loop src payload k (i + 1)

/-- `mesh_packet_adv_data_sanitize`: the status and the packet afterwards. -/
def mesh_packet_adv_data_sanitize (cfg : Config) (p_packet : Option mesh_packet_t) :
    Except Fault (nrf_code × Option mesh_packet_t) := do
  let p_mesh_adv_data ← mesh_packet_adv_data_get cfg p_packet
  match p_mesh_adv_data, p_packet with
  | some off, some p =>
    let payload ←
      if off ≠ 0 then do
        let len ← rd p.payload off
        let adv_data_length := (len + 1) % 256
        mesh_packet_adv_data_sanitize_loop off p.payload adv_data_length 0
      else
        pure p.payload
    let len ← rd payload 0
    let header := { p.header with
      length := (MESH_PACKET_OVERHEAD - MESH_PACKET_ADV_OVERHEAD + len) % 256 }
    pure (NRF_SUCCESS, some { p with header := header, payload := payload })
  | _, _ => pure (NRF_ERROR_INVALID_DATA, p_packet)

/-- Loop of `mesh_packet_has_additional_data`; `off` is the byte offset of
the cursor from `&payload[0]`, and the bound `header.length - 7` is computed
in `int`.  The cursor moves as in `mesh_packet_adv_data_get_loop`. -/
def mesh_packet_has_additional_data_loop (cfg : Config) (p : mesh_packet_t) :
    Nat → Nat → Except Fault Bool
  | 0, _ => .error .out_of_fuel
  | fuel + 1, off =>
    if (off : Int) < (p.header.length : Int) - 7 then do
      let adv_data_type ← rd p.payload (off + 1)
      let differs ←
        if adv_data_type ≠ cfg.MESH_ADV_DATA_TYPE then pure true
        else do
          let mesh_uuid ← rd16 p.payload (off + 2)
          pure (decide (mesh_uuid ≠ cfg.MESH_UUID))
      if differs then
        pure true
      else
        let adv_data_length ← rd p.payload off
        mesh_packet_has_additional_data_loop cfg p fuel
          (off + (adv_data_length + 1) * sizeof_mesh_adv_data_t)
    else
      pure false

/-- `mesh_packet_has_additional_data`.  The function dereferences
`p_packet` without a test for `NULL`. -/
def mesh_packet_has_additional_data (cfg : Config) (p_packet : Option mesh_packet_t) :
    Except Fault Bool :=
  match p_packet with
  | none => .error .null_deref
  | some p => mesh_packet_has_additional_data_loop cfg p 256 0

/-- `mesh_packet_take_ownership`: the packet afterwards. -/
def mesh_packet_take_ownership (cfg : Config) (provider : nrf_code × ble_gap_addr_t)
    (p_packet : Option mesh_packet_t) : Except Fault (Option mesh_packet_t) := do
  let additional ← mesh_packet_has_additional_data cfg p_packet
  let p_packet ←
    if additional then do
      let r ← mesh_packet_adv_data_sanitize cfg p_packet
      pure r.2
    else
      pure p_packet
  match p_packet with
  | none => .error .null_deref
  | some p => pure (some (mesh_packet_set_local_addr provider p).2)

/-! ## Scenario drivers and sample values -/

/-- Run `mesh_packet_acquire` `k` times in a row, no release in between: the
results of the calls in order and the table after the last one. -/
def acquire_n (cfg : Config) : Nat → List Nat → Except Fault (List (Option Nat) × List Nat)
  | 0, refs => .ok ([], refs)
  | k + 1, refs => do
    let r ← mesh_packet_acquire cfg refs
    let rest ← acquire_n cfg k r.2
    pure (r.1 :: rest.1, rest.2)

/-- A sample platform: a pool of two 40-byte slots at `0x20002000`. -/
def sample_cfg : Config :=
  { MESH_PACKET_POOL_SIZE := 2
    pool_addr := 0x20002000
    sizeof_mesh_packet_t := 40
    MESH_ADV_DATA_TYPE := 0x16
    MESH_UUID := 0xFEE4
    BLE_PACKET_TYPE_ADV_NONCONN_IND := 2
    RBC_MESH_INVALID_HANDLE := 0xFFFF }

/-- A sample packet: a foreign 3-byte record, then filler bytes. -/
def sample_packet : mesh_packet_t :=
  { header := { type := 0, addr_type := 0, length := 9 }
    addr := [0x11, 0x22, 0x33, 0x44, 0x55, 0x66]
    payload := [2, 1, 6] ++ List.replicate 28 0xAA }

/-- A sample answer of the local-address provider. -/
def sample_provider : nrf_code × ble_gap_addr_t :=
  (NRF_SUCCESS, { addr_type := 1, addr := [0xC0, 0xFF, 0xEE, 0x01, 0x02, 0x03] })

deriving instance DecidableEq for Except

/-- Closed form of the packet a successful `mesh_packet_build` leaves behind;
`mesh_packet_build_eq` proves that the code produces it. -/
def built (cfg : Config) (provider : nrf_code × ble_gap_addr_t) (p : mesh_packet_t)
    (handle version : Nat) (data : List Nat) : mesh_packet_t :=
  { header :=
      { type := cfg.BLE_PACKET_TYPE_ADV_NONCONN_IND
        addr_type := (mesh_packet_set_local_addr provider p).2.header.addr_type
        length := MESH_PACKET_OVERHEAD + data.length }
    addr := (mesh_packet_set_local_addr provider p).2.addr
    payload :=
      [MESH_PACKET_ADV_OVERHEAD + data.length, cfg.MESH_ADV_DATA_TYPE,
        cfg.MESH_UUID % 256, cfg.MESH_UUID / 256,
        handle % 256, handle / 256, version % 256, version / 256] ++ data ++
        p.payload.drop (8 + data.length) }

/-! ## Signatures and sample chains -/

/-- The record at payload offset `off` carries the application signature:
its type tag is `MESH_ADV_DATA_TYPE` and its magic is `MESH_UUID`. -/
def signature_at (cfg : Config) (payload : List Nat) (off : Nat) : Prop :=
  payload[off + 1]? = some cfg.MESH_ADV_DATA_TYPE ∧
    rd16 payload (off + 2) = .ok cfg.MESH_UUID

instance (cfg : Config) (payload : List Nat) (off : Nat) :
    Decidable (signature_at cfg payload off) := by
  unfold signature_at
  infer_instance

/-- A sample received packet: a foreign 3-byte record, the application record
of handle `0x1234`, version 5 and data `9, 8, 7` at offset 3, a foreign
3-byte record at offset 14; 17 declared payload bytes. -/
def chain_packet : mesh_packet_t :=
  { header := { type := 2, addr_type := 0, length := 6 + 17 }
    addr := [0x11, 0x22, 0x33, 0x44, 0x55, 0x66]
    payload := [2, 1, 6] ++ [10, 0x16, 0xE4, 0xFE, 0x34, 0x12, 5, 0, 9, 8, 7] ++
      [2, 0xFF, 0] ++ List.replicate 14 0 }

/-- The sample chain packet with the address of `sample_provider` stamped on
it and nothing else changed. -/
def chain_packet_owned : mesh_packet_t :=
  { chain_packet with
    header := { chain_packet.header with addr_type := 1 }
    addr := [0xC0, 0xFF, 0xEE, 0x01, 0x02, 0x03] }

/-- A sample received packet: the application record of handle `0x1234`,
version 5 and no data at offset 0, then a foreign 3-byte record at offset 8;
11 declared payload bytes. -/
def trailing_packet : mesh_packet_t :=
  { header := { type := 2, addr_type := 0, length := 6 + 11 }
    addr := [0x11, 0x22, 0x33, 0x44, 0x55, 0x66]
    payload := [7, 0x16, 0xE4, 0xFE, 0x34, 0x12, 5, 0] ++ [2, 0xFF, 0] ++
      List.replicate 20 0 }

/-- A sample received packet whose record at offset 0 carries the signature
and declares 31 bytes, one more than the largest record. -/
def oversized_packet : mesh_packet_t :=
  { header := { type := 2, addr_type := 0, length := 6 + 31 }
    addr := [0x11, 0x22, 0x33, 0x44, 0x55, 0x66]
    payload := [31, 0x16, 0xE4, 0xFE, 0x34, 0x12, 5, 0] ++ List.replicate 23 0x5A }

/-- A sample packet whose one declared payload byte is a record of length
0. -/
def one_byte_packet : mesh_packet_t :=
  { header := { type := 2, addr_type := 0, length := 6 + 1 }
    addr := [0x11, 0x22, 0x33, 0x44, 0x55, 0x66]
    payload := List.replicate 31 0 }

/-- The loop test both chain walks share, `adv_data_type != MESH_ADV_DATA_TYPE
|| mesh_uuid != MESH_UUID` on the record at offset `off`, with the reads it
makes; `loop_get_step` and `loop_has_step` show that the loops are built on
it. -/
def signature_differs (cfg : Config) (payload : List Nat) (off : Nat) : Except Fault Bool := do
  let adv_data_type ← rd payload (off + 1)
  if adv_data_type ≠ cfg.MESH_ADV_DATA_TYPE then pure true
  else do
    let mesh_uuid ← rd16 payload (off + 2)
    pure (decide (mesh_uuid ≠ cfg.MESH_UUID))

/-! # Theorems -/

/-! ## Array access lemmas -/

theorem rd_ok {buf : List Nat} {i c : Nat} (h : buf[i]? = some c) : rd buf i = .ok c := by
  simp [rd, h]

theorem wr_ok {buf : List Nat} {i : Nat} (v : Nat) (h : i < buf.length) :
    wr buf i v = .ok (buf.set i v) := by
  simp [wr, h]

theorem bind_ok {α β : Type} (a : α) (f : α → Except Fault β) :
    (Except.ok a >>= f) = f a := rfl

/-! ## The acquire loop -/

theorem acquire_loop_found (cfg : Config) (refs : List Nat) :
    ∀ (k i j : Nat), i ≤ j → j < i + k → refs[j]? = some 0 →
      (∀ m, i ≤ m → m < j → ∃ c, refs[m]? = some c ∧ c ≠ 0) →
      mesh_packet_acquire_loop cfg refs k i = .ok (some (slot_ptr cfg j), refs.set j 1) := by
  intro k
  induction k with
  | zero => intro i j h1 h2; omega
  | succ k ih =>
    intro i j hij hjk hz hnz
    rcases Nat.eq_or_lt_of_le hij with rfl | hlt
    · have hlen : i < refs.length := by
        rcases Nat.lt_or_ge i refs.length with h | h
        · exact h
        · rw [List.getElem?_eq_none h] at hz; cases hz
      simp [mesh_packet_acquire_loop, rd_ok hz, wr_ok 1 hlen, bind_ok]
    · obtain ⟨c, hc, hc0⟩ := hnz i (Nat.le_refl i) hlt
      simp only [mesh_packet_acquire_loop, rd_ok hc, bind_ok, hc0, if_false]
      exact ih (i + 1) j (by omega) (by omega) hz (fun m hm hmj => hnz m (by omega) hmj)

theorem acquire_loop_full (cfg : Config) (refs : List Nat) :
    ∀ (k i : Nat), (∀ m, i ≤ m → m < i + k → ∃ c, refs[m]? = some c ∧ c ≠ 0) →
      mesh_packet_acquire_loop cfg refs k i = .ok (none, refs) := by
  intro k
  induction k with
  | zero => intro i _; rfl
  | succ k ih =>
    intro i hnz
    obtain ⟨c, hc, hc0⟩ := hnz i (Nat.le_refl i) (by omega)
    simp only [mesh_packet_acquire_loop, rd_ok hc, bind_ok, hc0, if_false]
    exact ih (i + 1) (fun m hm hmk => hnz m (by omega) (by omega))

theorem count_of_ne_zero {refs : List Nat} {m : Nat} (hm : m < refs.length)
    (h : refs[m]? ≠ some 0) : ∃ c, refs[m]? = some c ∧ c ≠ 0 := by
  refine ⟨refs[m], List.getElem?_eq_getElem hm, ?_⟩
  intro h0
  apply h
  rw [List.getElem?_eq_getElem hm, h0]

theorem lt_length_of_getElem? {refs : List Nat} {i c : Nat} (h : refs[i]? = some c) :
    i < refs.length := by
  rcases Nat.lt_or_ge i refs.length with hlt | hge
  · exact hlt
  · rw [List.getElem?_eq_none hge] at h; cases h

theorem acquire_found (cfg : Config) (refs : List Nat)
    (hlen : refs.length = cfg.MESH_PACKET_POOL_SIZE) (i : Nat)
    (hz : refs[i]? = some 0) (hlow : ∀ j, j < i → refs[j]? ≠ some 0) :
    mesh_packet_acquire cfg refs = .ok (some (slot_ptr cfg i), refs.set i 1) := by
  have hi := lt_length_of_getElem? hz
  exact acquire_loop_found cfg refs _ 0 i (Nat.zero_le _) (by omega) hz
    (fun m _ hm => count_of_ne_zero (by omega) (hlow m hm))

theorem acquire_full (cfg : Config) (refs : List Nat)
    (hlen : refs.length = cfg.MESH_PACKET_POOL_SIZE)
    (hnz : ∀ j, j < cfg.MESH_PACKET_POOL_SIZE → refs[j]? ≠ some 0) :
    mesh_packet_acquire cfg refs = .ok (none, refs) :=
  acquire_loop_full cfg refs _ 0 (fun m _ hm => count_of_ne_zero (by omega) (hnz m (by omega)))

/-- Either some slot is free, and then there is a lowest free one, or none
is. -/
theorem lowest_free_or_full (refs : List Nat) (n : Nat) :
    (∃ i, i < n ∧ refs[i]? = some 0 ∧ ∀ j, j < i → refs[j]? ≠ some 0) ∨
      (∀ j, j < n → refs[j]? ≠ some 0) := by
  induction n with
  | zero => right; intro j hj; omega
  | succ n ih =>
    rcases ih with ⟨i, hi, hz, hlow⟩ | hall
    · exact Or.inl ⟨i, by omega, hz, hlow⟩
    · by_cases hn : refs[n]? = some 0
      · exact Or.inl ⟨n, by omega, hn, hall⟩
      · right
        intro j hj
        rcases Nat.eq_or_lt_of_le (Nat.le_of_lt_succ hj) with rfl | hlt
        · exact hn
        · exact hall j hlt

/-- C2: `mesh_packet_acquire` hands out the free slot of lowest index, sets
its count to 1 and leaves the other counts alone; it returns false, with the
table unchanged, exactly when no count is 0; a slot it returns had count
0. -/
theorem mesh_packet_acquire_lowest_free (cfg : Config) (refs : List Nat)
    (hlen : refs.length = cfg.MESH_PACKET_POOL_SIZE) :
    (∀ i, i < cfg.MESH_PACKET_POOL_SIZE → refs[i]? = some 0 →
        (∀ j, j < i → refs[j]? ≠ some 0) →
        mesh_packet_acquire cfg refs = .ok (some (slot_ptr cfg i), refs.set i 1)) ∧
    ((∀ j, j < cfg.MESH_PACKET_POOL_SIZE → refs[j]? ≠ some 0) ↔
        mesh_packet_acquire cfg refs = .ok (none, refs)) ∧
    (∀ r, mesh_packet_acquire cfg refs = .ok (none, r) →
        r = refs ∧ ∀ j, j < cfg.MESH_PACKET_POOL_SIZE → refs[j]? ≠ some 0) ∧
    (∀ a r, mesh_packet_acquire cfg refs = .ok (some a, r) →
        ∃ i, i < cfg.MESH_PACKET_POOL_SIZE ∧ a = slot_ptr cfg i ∧ refs[i]? = some 0 ∧
          (∀ j, j < i → refs[j]? ≠ some 0) ∧ r = refs.set i 1) ∧
    (∃ res, mesh_packet_acquire cfg refs = .ok res) := by
  have hnone : ∀ r, mesh_packet_acquire cfg refs = .ok (none, r) →
      r = refs ∧ ∀ j, j < cfg.MESH_PACKET_POOL_SIZE → refs[j]? ≠ some 0 := by
    intro r hr
    rcases lowest_free_or_full refs cfg.MESH_PACKET_POOL_SIZE with ⟨i, _, hz, hlow⟩ | hall
    · rw [acquire_found cfg refs hlen i hz hlow] at hr
      cases hr
    · rw [acquire_full cfg refs hlen hall] at hr
      cases hr
      exact ⟨rfl, hall⟩
  refine ⟨fun i _ hz hlow => acquire_found cfg refs hlen i hz hlow,
    ⟨acquire_full cfg refs hlen, fun h => (hnone refs h).2⟩, hnone, ?_, ?_⟩
  · intro a r hr
    rcases lowest_free_or_full refs cfg.MESH_PACKET_POOL_SIZE with ⟨i, hi, hz, hlow⟩ | hall
    · rw [acquire_found cfg refs hlen i hz hlow] at hr
      cases hr
      exact ⟨i, hi, rfl, hz, hlow, rfl⟩
    · rw [acquire_full cfg refs hlen hall] at hr
      cases hr
  · rcases lowest_free_or_full refs cfg.MESH_PACKET_POOL_SIZE with ⟨i, _, hz, hlow⟩ | hall
    · exact ⟨_, acquire_found cfg refs hlen i hz hlow⟩
    · exact ⟨_, acquire_full cfg refs hlen hall⟩

/-- Witness of C2 on the sample pool with counts `[3, 0]`. -/
theorem mesh_packet_acquire_lowest_free_witness :
    [3, 0].length = sample_cfg.MESH_PACKET_POOL_SIZE ∧
      mesh_packet_acquire sample_cfg [3, 0] = .ok (some (slot_ptr sample_cfg 1), [3, 1]) :=
  ⟨rfl, (mesh_packet_acquire_lowest_free sample_cfg [3, 0] rfl).1 1 (by decide) rfl
    (by intro j hj; interval_cases j; decide)⟩

/-! ## Exhausting the pool -/

theorem init_loop_spec :
    ∀ (k i : Nat) (refs : List Nat), i + k ≤ refs.length →
      ∃ r, mesh_packet_init_loop refs k i = .ok r ∧ r.length = refs.length ∧
        (∀ m, i ≤ m → m < i + k → r[m]? = some 0) ∧
        (∀ m, m < i → r[m]? = refs[m]?) := by
  intro k
  induction k with
  | zero =>
    intro i refs _
    exact ⟨refs, rfl, rfl, fun m h1 h2 => by omega, fun m _ => rfl⟩
  | succ k ih =>
    intro i refs h
    obtain ⟨r, hr, hl, hz, hlow⟩ := ih (i + 1) (refs.set i 0) (by simp; omega)
    refine ⟨r, ?_, by simpa using hl, ?_, ?_⟩
    · simp only [mesh_packet_init_loop, wr_ok 0 (show i < refs.length by omega), bind_ok]
      exact hr
    · intro m h1 h2
      rcases Nat.eq_or_lt_of_le h1 with rfl | hlt
      · rw [hlow i (Nat.lt_succ_self i)]
        simp [List.getElem?_set]
        omega
      · exact hz m (by omega) (by omega)
    · intro m hm
      rw [hlow m (by omega)]
      simp [List.getElem?_set]
      omega

theorem init_eq_replicate (cfg : Config) (refs : List Nat)
    (hlen : refs.length = cfg.MESH_PACKET_POOL_SIZE) :
    mesh_packet_init cfg refs = .ok (List.replicate cfg.MESH_PACKET_POOL_SIZE 0) := by
  obtain ⟨r, hr, hl, hz, _⟩ := init_loop_spec cfg.MESH_PACKET_POOL_SIZE 0 refs (by omega)
  have : r = List.replicate cfg.MESH_PACKET_POOL_SIZE 0 := by
    apply List.ext_getElem?
    intro m
    rcases Nat.lt_or_ge m cfg.MESH_PACKET_POOL_SIZE with hm | hm
    · rw [hz m (Nat.zero_le m) (by omega)]
      simp [List.getElem?_replicate, hm]
    · rw [List.getElem?_eq_none (by omega), List.getElem?_eq_none (by simpa using hm)]
  rw [mesh_packet_init, hr, this]

/-- The table after the first `j` of `n` slots were handed out once. -/
theorem getElem?_taken (n j m : Nat) (hj : j ≤ n) :
    (List.replicate j 1 ++ List.replicate (n - j) 0)[m]? =
      if m < j then some 1 else if m < n then some 0 else none := by
  simp only [List.getElem?_append, List.length_replicate, List.getElem?_replicate]
  split_ifs <;> first | rfl | omega

theorem set_taken (n j : Nat) (hj : j < n) :
    (List.replicate j 1 ++ List.replicate (n - j) 0).set j 1 =
      List.replicate (j + 1) 1 ++ List.replicate (n - (j + 1)) 0 := by
  apply List.ext_getElem?
  intro m
  rw [List.getElem?_set, getElem?_taken n (j + 1) m (by omega), getElem?_taken n j m (by omega)]
  simp only [List.length_append, List.length_replicate]
  split_ifs <;> first | rfl | omega

theorem acquire_taken (cfg : Config) (j : Nat) (hj : j < cfg.MESH_PACKET_POOL_SIZE) :
    mesh_packet_acquire cfg
        (List.replicate j 1 ++ List.replicate (cfg.MESH_PACKET_POOL_SIZE - j) 0) =
      .ok (some (slot_ptr cfg j),
        List.replicate (j + 1) 1 ++ List.replicate (cfg.MESH_PACKET_POOL_SIZE - (j + 1)) 0) := by
  rw [← set_taken _ j hj]
  apply acquire_found cfg _ (by simp; omega) j
  · rw [getElem?_taken _ j j (by omega)]; simp [hj]
  · intro m hm
    rw [getElem?_taken _ j m (by omega)]; simp [hm]

theorem acquire_n_taken (cfg : Config) :
    ∀ (k j : Nat), j + k ≤ cfg.MESH_PACKET_POOL_SIZE →
      acquire_n cfg k
          (List.replicate j 1 ++ List.replicate (cfg.MESH_PACKET_POOL_SIZE - j) 0) =
        .ok ((List.range' j k).map (fun i => some (slot_ptr cfg i)),
          List.replicate (j + k) 1 ++
            List.replicate (cfg.MESH_PACKET_POOL_SIZE - (j + k)) 0) := by
  intro k
  induction k with
  | zero => intro j _; rfl
  | succ k ih =>
    intro j h
    simp only [acquire_n, acquire_taken cfg j (by omega), bind_ok, ih (j + 1) (by omega)]
    simp [List.range'_succ, Nat.add_assoc, Nat.add_comm 1 k]
    rfl

theorem slot_ptr_injective (cfg : Config) (h : 0 < cfg.sizeof_mesh_packet_t) :
    Function.Injective (slot_ptr cfg) := by
  intro a b hab
  simp only [slot_ptr] at hab
  exact Nat.eq_of_mul_eq_mul_right h (Nat.add_left_cancel hab)

/-- C3: from the table `mesh_packet_init` leaves, as many calls of
`mesh_packet_acquire` in a row as the pool has slots all succeed, with
pairwise distinct slots, and one more call returns false. -/
theorem mesh_packet_pool_exhaustion (cfg : Config) (refs : List Nat)
    (hlen : refs.length = cfg.MESH_PACKET_POOL_SIZE)
    (hsize : 0 < cfg.sizeof_mesh_packet_t) :
    mesh_packet_init cfg refs = .ok (List.replicate cfg.MESH_PACKET_POOL_SIZE 0) ∧
    acquire_n cfg cfg.MESH_PACKET_POOL_SIZE (List.replicate cfg.MESH_PACKET_POOL_SIZE 0) =
      .ok ((List.range cfg.MESH_PACKET_POOL_SIZE).map (fun i => some (slot_ptr cfg i)),
        List.replicate cfg.MESH_PACKET_POOL_SIZE 1) ∧
    ((List.range cfg.MESH_PACKET_POOL_SIZE).map (slot_ptr cfg)).Nodup ∧
    mesh_packet_acquire cfg (List.replicate cfg.MESH_PACKET_POOL_SIZE 1) =
      .ok (none, List.replicate cfg.MESH_PACKET_POOL_SIZE 1) := by
  refine ⟨init_eq_replicate cfg refs hlen, ?_, ?_, ?_⟩
  · have h := acquire_n_taken cfg cfg.MESH_PACKET_POOL_SIZE 0 (by omega)
    simpa [List.range_eq_range'] using h
  · exact List.Nodup.map (slot_ptr_injective cfg hsize) (List.nodup_range _)
  · apply acquire_full cfg _ (by simp)
    intro j hj
    simp [List.getElem?_replicate, hj]

/-- Witness of C3 on the sample pool of two slots, from counts `[7, 9]`. -/
theorem mesh_packet_pool_exhaustion_witness :
    ([7, 9].length = sample_cfg.MESH_PACKET_POOL_SIZE ∧ 0 < sample_cfg.sizeof_mesh_packet_t) ∧
    mesh_packet_init sample_cfg [7, 9] = .ok [0, 0] ∧
    acquire_n sample_cfg 2 [0, 0] = .ok ([some 0x20002000, some 0x20002028], [1, 1]) ∧
    [0x20002000, 0x20002028].Nodup ∧
    mesh_packet_acquire sample_cfg [1, 1] = .ok (none, [1, 1]) :=
  ⟨⟨rfl, by decide⟩, mesh_packet_pool_exhaustion sample_cfg [7, 9] rfl (by decide)⟩

/-! ## Reference counts -/

theorem ref_count_dec_pos (cfg : Config) (refs : List Nat) (p i c : Nat)
    (hp : packet_index cfg p = i) (hi : i < cfg.MESH_PACKET_POOL_SIZE)
    (hc : refs[i]? = some c) (hpos : 0 < c) (hbyte : c < 256) :
    mesh_packet_ref_count_dec cfg refs p = .ok (true, refs.set i (c - 1)) := by
  have hlen := lt_length_of_getElem? hc
  have hguard : ¬ i > cfg.MESH_PACKET_POOL_SIZE := by omega
  have hc0 : c ≠ 0 := by omega
  have hmod : (c - 1) % 256 = c - 1 := Nat.mod_eq_of_lt (by omega)
  simp [mesh_packet_ref_count_dec, hp, hguard, rd_ok hc, bind_ok, hc0, hmod, wr_ok _ hlen]

theorem ref_count_dec_zero (cfg : Config) (refs : List Nat) (p i : Nat)
    (hp : packet_index cfg p = i) (hi : i < cfg.MESH_PACKET_POOL_SIZE)
    (hc : refs[i]? = some 0) :
    mesh_packet_ref_count_dec cfg refs p = .ok (false, refs) := by
  have hguard : ¬ i > cfg.MESH_PACKET_POOL_SIZE := by omega
  simp [mesh_packet_ref_count_dec, hp, hguard, rd_ok hc, bind_ok]
  rfl

theorem ref_count_inc_below_max (cfg : Config) (refs : List Nat) (p i c : Nat)
    (hp : packet_index cfg p = i) (hi : i < cfg.MESH_PACKET_POOL_SIZE)
    (hc : refs[i]? = some c) (hbyte : c < 255) :
    mesh_packet_ref_count_inc cfg refs p = .ok (true, refs.set i (c + 1)) := by
  have hlen := lt_length_of_getElem? hc
  have hguard : ¬ i > cfg.MESH_PACKET_POOL_SIZE := by omega
  have hmod : (c + 1) % 256 = c + 1 := Nat.mod_eq_of_lt (by omega)
  simp [mesh_packet_ref_count_inc, hp, hguard, rd_ok hc, bind_ok, hmod, wr_ok _ hlen]
  rfl

theorem ref_count_inc_at_max (cfg : Config) (refs : List Nat) (p i : Nat)
    (hp : packet_index cfg p = i) (hi : i < cfg.MESH_PACKET_POOL_SIZE)
    (hc : refs[i]? = some 255) :
    mesh_packet_ref_count_inc cfg refs p = .error (.app_error NRF_ERROR_NO_MEM) := by
  have hlen := lt_length_of_getElem? hc
  have hguard : ¬ i > cfg.MESH_PACKET_POOL_SIZE := by omega
  simp [mesh_packet_ref_count_inc, hp, hguard, rd_ok hc, bind_ok, wr_ok _ hlen, APP_ERROR_CHECK]

theorem set_set_self (refs : List Nat) (i c v : Nat) (hc : refs[i]? = some c) :
    (refs.set i v).set i c = refs := by
  apply List.ext_getElem?
  intro m
  simp only [List.getElem?_set, List.length_set]
  split_ifs with h1 h2
  · subst h1; exact hc.symm
  · exact absurd (lt_length_of_getElem? hc) h2
  · rfl

/-- The pointer to slot `i` is mapped back to the index `i` when slots have
a size and the slot lies in the 32-bit address space. -/
theorem packet_index_slot_ptr (cfg : Config) (i : Nat)
    (hsize : 0 < cfg.sizeof_mesh_packet_t)
    (hfit : cfg.pool_addr + (i + 1) * cfg.sizeof_mesh_packet_t ≤ 2 ^ 32) :
    packet_index cfg (slot_ptr cfg i) = i := by
  have hmul : (i + 1) * cfg.sizeof_mesh_packet_t =
      i * cfg.sizeof_mesh_packet_t + cfg.sizeof_mesh_packet_t := by ring
  have h1 : cfg.pool_addr + i * cfg.sizeof_mesh_packet_t < 2 ^ 32 := by omega
  have h2 : cfg.pool_addr < 2 ^ 32 := by omega
  have h3 : i * cfg.sizeof_mesh_packet_t < 2 ^ 32 := by omega
  unfold packet_index slot_ptr
  rw [Nat.mod_eq_of_lt h1, Nat.mod_eq_of_lt h2]
  have h4 : cfg.pool_addr + i * cfg.sizeof_mesh_packet_t + 2 ^ 32 - cfg.pool_addr =
      i * cfg.sizeof_mesh_packet_t + 2 ^ 32 := by omega
  rw [h4, Nat.add_mod_right, Nat.mod_eq_of_lt h3]
  exact Nat.mul_div_cancel i hsize

/-- C4: in a full pool a slot held once is freed by
`mesh_packet_ref_count_dec`, and the next `mesh_packet_acquire` hands out
that same slot. -/
theorem mesh_packet_slot_reuse (cfg : Config) (refs : List Nat) (i : Nat)
    (hlen : refs.length = cfg.MESH_PACKET_POOL_SIZE)
    (hsize : 0 < cfg.sizeof_mesh_packet_t)
    (hfit : cfg.pool_addr + cfg.MESH_PACKET_POOL_SIZE * cfg.sizeof_mesh_packet_t ≤ 2 ^ 32)
    (hi : i < cfg.MESH_PACKET_POOL_SIZE)
    (hfull : ∀ j, j < cfg.MESH_PACKET_POOL_SIZE → refs[j]? ≠ some 0)
    (hone : refs[i]? = some 1) :
    mesh_packet_acquire cfg refs = .ok (none, refs) ∧
    mesh_packet_ref_count_dec cfg refs (slot_ptr cfg i) = .ok (true, refs.set i 0) ∧
    mesh_packet_acquire cfg (refs.set i 0) = .ok (some (slot_ptr cfg i), refs) := by
  have hp : packet_index cfg (slot_ptr cfg i) = i := by
    apply packet_index_slot_ptr cfg i hsize
    have : (i + 1) * cfg.sizeof_mesh_packet_t ≤
        cfg.MESH_PACKET_POOL_SIZE * cfg.sizeof_mesh_packet_t :=
      Nat.mul_le_mul_right _ hi
    omega
  refine ⟨acquire_full cfg refs hlen hfull,
    ref_count_dec_pos cfg refs _ i 1 hp hi hone (by decide) (by decide), ?_⟩
  have h := acquire_found cfg (refs.set i 0) (by simpa using hlen) i
    (by simp [List.getElem?_set]; omega)
    (by
      intro j hj
      rw [List.getElem?_set_ne (by omega)]
      exact hfull j (by omega))
  rw [h, set_set_self refs i 1 0 hone]

/-- Witness of C4, the scenario of the specification: a pool of two slots,
two acquisitions succeed, the third fails, slot 0 is released, the next
acquisition returns slot 0. -/
theorem mesh_packet_slot_reuse_witness :
    acquire_n sample_cfg 3 [0, 0] =
      .ok ([some (slot_ptr sample_cfg 0), some (slot_ptr sample_cfg 1), none], [1, 1]) ∧
    mesh_packet_acquire sample_cfg [1, 1] = .ok (none, [1, 1]) ∧
    mesh_packet_ref_count_dec sample_cfg [1, 1] (slot_ptr sample_cfg 0) = .ok (true, [0, 1]) ∧
    mesh_packet_acquire sample_cfg [0, 1] = .ok (some (slot_ptr sample_cfg 0), [1, 1]) :=
  ⟨by decide, mesh_packet_slot_reuse sample_cfg [1, 1] 0 rfl (by decide) (by decide) (by decide)
    (by intro j hj; have hj2 : j < 2 := hj; interval_cases j <;> decide) rfl⟩

/-- C5 as stated fails: with a count of 255 the increment wraps to 0 and
`mesh_packet_ref_count_inc` ends in the fatal error instead of returning
true. -/
theorem mesh_packet_ref_count_inc_dec_at_max :
    packet_index sample_cfg (slot_ptr sample_cfg 0) = 0 ∧
    0 < sample_cfg.MESH_PACKET_POOL_SIZE ∧
    mesh_packet_ref_count_inc sample_cfg [255, 1] (slot_ptr sample_cfg 0) =
      .error (.app_error NRF_ERROR_NO_MEM) ∧
    ¬ ∃ refs, mesh_packet_ref_count_inc sample_cfg [255, 1] (slot_ptr sample_cfg 0) =
      .ok (true, refs) := by
  refine ⟨by decide, by decide, by decide, ?_⟩
  rintro ⟨refs, h⟩
  have h2 : mesh_packet_ref_count_inc sample_cfg [255, 1] (slot_ptr sample_cfg 0) =
      .error (.app_error NRF_ERROR_NO_MEM) := by decide
  rw [h2] at h
  cases h

/-- C5, amended: on a slot of the pool whose count is below 255,
`mesh_packet_ref_count_inc` followed by `mesh_packet_ref_count_dec` leaves
the table as it was, and both calls return true. -/
theorem mesh_packet_ref_count_inc_dec (cfg : Config) (refs : List Nat) (p i c : Nat)
    (hp : packet_index cfg p = i) (hi : i < cfg.MESH_PACKET_POOL_SIZE)
    (hc : refs[i]? = some c) (hbyte : c < 255) :
    mesh_packet_ref_count_inc cfg refs p = .ok (true, refs.set i (c + 1)) ∧
    mesh_packet_ref_count_dec cfg (refs.set i (c + 1)) p = .ok (true, refs) := by
  have hlen := lt_length_of_getElem? hc
  refine ⟨ref_count_inc_below_max cfg refs p i c hp hi hc hbyte, ?_⟩
  have h := ref_count_dec_pos cfg (refs.set i (c + 1)) p i (c + 1) hp hi
    (by simp [List.getElem?_set, hlen]) (by omega) (by omega)
  rw [h, Nat.add_sub_cancel, set_set_self refs i c (c + 1) hc]

/-- Witness of C5 (amended): slot 1 of the sample pool, count 254, addressed
by a pointer into the middle of the slot. -/
theorem mesh_packet_ref_count_inc_dec_witness :
    (packet_index sample_cfg 0x20002030 = 1 ∧ 1 < sample_cfg.MESH_PACKET_POOL_SIZE ∧
      [3, 254][1]? = some 254 ∧ 254 < 255) ∧
    mesh_packet_ref_count_inc sample_cfg [3, 254] 0x20002030 = .ok (true, [3, 255]) ∧
    mesh_packet_ref_count_dec sample_cfg [3, 255] 0x20002030 = .ok (true, [3, 254]) :=
  ⟨⟨by decide, by decide, rfl, by decide⟩,
    mesh_packet_ref_count_inc_dec sample_cfg [3, 254] 0x20002030 1 254 (by decide) (by decide)
      rfl (by decide)⟩

/-- C6: on a slot of the pool with count 0 `mesh_packet_ref_count_dec`
returns false and leaves the table unchanged; with an 8-bit count `c > 0` it
returns true, the count becomes `c - 1` and no other count changes. -/
theorem mesh_packet_ref_count_dec_guard (cfg : Config) (refs : List Nat) (p i : Nat)
    (hp : packet_index cfg p = i) (hi : i < cfg.MESH_PACKET_POOL_SIZE) :
    (refs[i]? = some 0 → mesh_packet_ref_count_dec cfg refs p = .ok (false, refs)) ∧
    (∀ c, refs[i]? = some c → 0 < c → c < 256 →
      mesh_packet_ref_count_dec cfg refs p = .ok (true, refs.set i (c - 1)) ∧
      (refs.set i (c - 1))[i]? = some (c - 1) ∧
      ∀ j, j ≠ i → (refs.set i (c - 1))[j]? = refs[j]?) := by
  refine ⟨ref_count_dec_zero cfg refs p i hp hi, ?_⟩
  intro c hc hpos hbyte
  have hlen := lt_length_of_getElem? hc
  refine ⟨ref_count_dec_pos cfg refs p i c hp hi hc hpos hbyte, ?_, ?_⟩
  · simp [List.getElem?_set, hlen]
  · intro j hj
    exact List.getElem?_set_ne (Ne.symm hj)

/-- Witness of C6 on the sample pool: a second release of slot 0 is refused,
a release of slot 1 with count 2 leaves count 1. -/
theorem mesh_packet_ref_count_dec_guard_witness :
    (packet_index sample_cfg (slot_ptr sample_cfg 0) = 0 ∧
      0 < sample_cfg.MESH_PACKET_POOL_SIZE) ∧
    mesh_packet_ref_count_dec sample_cfg [0, 2] (slot_ptr sample_cfg 0) = .ok (false, [0, 2]) ∧
    mesh_packet_ref_count_dec sample_cfg [0, 2] (slot_ptr sample_cfg 1) = .ok (true, [0, 1]) :=
  ⟨⟨by decide, by decide⟩,
    (mesh_packet_ref_count_dec_guard sample_cfg [0, 2] (slot_ptr sample_cfg 0) 0
      (by decide) (by decide)).1 rfl,
    ((mesh_packet_ref_count_dec_guard sample_cfg [0, 2] (slot_ptr sample_cfg 1) 1
      (by decide) (by decide)).2 2 rfl (by decide) (by decide)).1⟩

/-- C7 fails on the code: the guard is `index > MESH_PACKET_POOL_SIZE`, so
the pointer just past the last slot, whose index is
`MESH_PACKET_POOL_SIZE`, is not rejected; both functions go on to
`g_packet_refs[MESH_PACKET_POOL_SIZE]`, outside the table, instead of
returning false. -/
theorem mesh_packet_ref_count_past_the_end :
    packet_index sample_cfg (slot_ptr sample_cfg 2) = sample_cfg.MESH_PACKET_POOL_SIZE ∧
    mesh_packet_ref_count_inc sample_cfg [1, 1] (slot_ptr sample_cfg 2) =
      .error .out_of_bounds ∧
    mesh_packet_ref_count_dec sample_cfg [1, 1] (slot_ptr sample_cfg 2) =
      .error .out_of_bounds ∧
    mesh_packet_ref_count_inc sample_cfg [1, 1] (slot_ptr sample_cfg 3) = .ok (false, [1, 1]) ∧
    mesh_packet_ref_count_dec sample_cfg [1, 1] (slot_ptr sample_cfg 3) = .ok (false, [1, 1]) := by
  decide

/-- The references the guard does reject: an index above
`MESH_PACKET_POOL_SIZE` makes both functions return false with the table
untouched. -/
theorem ref_count_rejects_above (cfg : Config) (refs : List Nat) (p : Nat)
    (h : cfg.MESH_PACKET_POOL_SIZE < packet_index cfg p) :
    mesh_packet_ref_count_inc cfg refs p = .ok (false, refs) ∧
    mesh_packet_ref_count_dec cfg refs p = .ok (false, refs) := by
  simp [mesh_packet_ref_count_inc, mesh_packet_ref_count_dec, h]

/-- The reference just past the pool is not rejected, whatever the pool
size: the access leaves the table. -/
theorem ref_count_index_eq_size (cfg : Config) (refs : List Nat) (p : Nat)
    (hlen : refs.length = cfg.MESH_PACKET_POOL_SIZE)
    (h : packet_index cfg p = cfg.MESH_PACKET_POOL_SIZE) :
    mesh_packet_ref_count_inc cfg refs p = .error .out_of_bounds ∧
    mesh_packet_ref_count_dec cfg refs p = .error .out_of_bounds := by
  have hnone : refs[cfg.MESH_PACKET_POOL_SIZE]? = none :=
    List.getElem?_eq_none (by omega)
  constructor
  · simp [mesh_packet_ref_count_inc, h, rd, hnone]; rfl
  · simp [mesh_packet_ref_count_dec, h, rd, hnone]; rfl

/-- C8: on a slot of the pool with 8-bit count `c`,
`mesh_packet_ref_count_inc` returns true and stores `c + 1`, all other
counts unchanged, when `c < 255`; when `c = 255` it ends in the fatal error
of `APP_ERROR_CHECK(NRF_ERROR_NO_MEM)`. -/
theorem mesh_packet_ref_count_inc_overflow (cfg : Config) (refs : List Nat) (p i c : Nat)
    (hp : packet_index cfg p = i) (hi : i < cfg.MESH_PACKET_POOL_SIZE)
    (hc : refs[i]? = some c) :
    (c < 255 →
      mesh_packet_ref_count_inc cfg refs p = .ok (true, refs.set i (c + 1)) ∧
      (refs.set i (c + 1))[i]? = some (c + 1) ∧
      ∀ j, j ≠ i → (refs.set i (c + 1))[j]? = refs[j]?) ∧
    (c = 255 →
      mesh_packet_ref_count_inc cfg refs p = .error (.app_error NRF_ERROR_NO_MEM)) := by
  have hlen := lt_length_of_getElem? hc
  refine ⟨fun hlt => ⟨ref_count_inc_below_max cfg refs p i c hp hi hc hlt, ?_, ?_⟩, ?_⟩
  · simp [List.getElem?_set, hlen]
  · intro j hj
    exact List.getElem?_set_ne (Ne.symm hj)
  · intro h255
    subst h255
    exact ref_count_inc_at_max cfg refs p i hp hi hc

/-- Witness of C8 on the sample pool: slot 1 holds the count 255. -/
theorem mesh_packet_ref_count_inc_overflow_witness :
    (packet_index sample_cfg (slot_ptr sample_cfg 1) = 1 ∧
      1 < sample_cfg.MESH_PACKET_POOL_SIZE ∧ [4, 255][1]? = some 255) ∧
    mesh_packet_ref_count_inc sample_cfg [4, 255] (slot_ptr sample_cfg 1) =
      .error (.app_error NRF_ERROR_NO_MEM) :=
  ⟨⟨by decide, by decide, rfl⟩,
    (mesh_packet_ref_count_inc_overflow sample_cfg [4, 255] (slot_ptr sample_cfg 1) 1 255
      (by decide) (by decide) rfl).2 rfl⟩

/-! ## Building a packet -/

theorem memcpy_append :
    ∀ (src pre rest : List Nat), src.length ≤ rest.length →
      memcpy (pre ++ rest) pre.length src src.length =
        .ok (pre ++ src ++ rest.drop src.length) := by
  intro src
  induction src with
  | nil => intro pre rest _; simp [memcpy]
  | cons b bs ih =>
    intro pre rest h
    rcases rest with _ | ⟨r, rest⟩
    · simp at h
    · have hlt : pre.length < (pre ++ r :: rest).length := by simp
      have hset : (pre ++ r :: rest).set pre.length b = (pre ++ [b]) ++ rest := by
        simp [List.set_append]
      have hlen : (pre ++ [b]).length = pre.length + 1 := by simp
      simp only [List.length_cons, memcpy, wr_ok b hlt, bind_ok, hset]
      rw [← hlen, ih (pre ++ [b]) rest (by simpa using h)]
      simp

theorem set_local_addr_payload (provider : nrf_code × ble_gap_addr_t) (p : mesh_packet_t) :
    (mesh_packet_set_local_addr provider p).2.payload = p.payload := by
  simp only [mesh_packet_set_local_addr]
  split_ifs <;> rfl

theorem mesh_packet_build_eq (cfg : Config) (provider : nrf_code × ble_gap_addr_t)
    (p : mesh_packet_t) (handle version : Nat) (data : List Nat)
    (hpay : p.payload.length = BLE_ADV_PACKET_PAYLOAD_MAX_LENGTH)
    (hn : data.length ≤ RBC_MESH_VALUE_MAX_LEN)
    (htype : cfg.MESH_ADV_DATA_TYPE < 256) (huuid : cfg.MESH_UUID < 65536)
    (hh : handle < 65536) (hv : version < 65536) :
    mesh_packet_build cfg provider (some p) handle version (some data) data.length =
      .ok (NRF_SUCCESS, some (built cfg provider p handle version data)) := by
  obtain ⟨hdr, addr, payload⟩ := p
  simp only [BLE_ADV_PACKET_PAYLOAD_MAX_LENGTH] at hpay
  simp only [RBC_MESH_VALUE_MAX_LEN] at hn
  rcases payload with _ | ⟨a0, _ | ⟨a1, _ | ⟨a2, _ | ⟨a3, _ | ⟨a4, _ | ⟨a5, _ | ⟨a6, _ | ⟨a7, rest⟩⟩⟩⟩⟩⟩⟩⟩ <;>
    simp at hpay
  have hrest : data.length ≤ rest.length := by omega
  have hnot : ¬ data.length > RBC_MESH_VALUE_MAX_LEN := by
    simp only [RBC_MESH_VALUE_MAX_LEN]; omega
  have m1 : (MESH_PACKET_OVERHEAD + data.length) % 256 = MESH_PACKET_OVERHEAD + data.length := by
    apply Nat.mod_eq_of_lt
    simp only [MESH_PACKET_OVERHEAD, BLE_GAP_ADDR_LEN, MESH_PACKET_ADV_OVERHEAD]; omega
  have m2 : (MESH_PACKET_ADV_OVERHEAD + data.length) % 256 =
      MESH_PACKET_ADV_OVERHEAD + data.length := by
    apply Nat.mod_eq_of_lt
    simp only [MESH_PACKET_ADV_OVERHEAD]; omega
  have m3 : cfg.MESH_ADV_DATA_TYPE % 256 = cfg.MESH_ADV_DATA_TYPE := Nat.mod_eq_of_lt htype
  have m4 : cfg.MESH_UUID / 256 % 256 = cfg.MESH_UUID / 256 := Nat.mod_eq_of_lt (by omega)
  have m5 : handle / 256 % 256 = handle / 256 := Nat.mod_eq_of_lt (by omega)
  have m6 : version / 256 % 256 = version / 256 := Nat.mod_eq_of_lt (by omega)
  have hcopy := memcpy_append data
    [MESH_PACKET_ADV_OVERHEAD + data.length, cfg.MESH_ADV_DATA_TYPE,
      cfg.MESH_UUID % 256, cfg.MESH_UUID / 256,
      handle % 256, handle / 256, version % 256, version / 256] rest hrest
  simp only [List.length_cons, List.length_nil] at hcopy
  have hdrop : (a0 :: a1 :: a2 :: a3 :: a4 :: a5 :: a6 :: a7 :: rest).drop (8 + data.length) =
      rest.drop data.length := by
    rw [Nat.add_comm]; rfl
  have hcopy2 : ∀ x : Nat, x = 8 → memcpy
      ([MESH_PACKET_ADV_OVERHEAD + data.length, cfg.MESH_ADV_DATA_TYPE,
        cfg.MESH_UUID % 256, cfg.MESH_UUID / 256,
        handle % 256, handle / 256, version % 256, version / 256] ++ rest) x data data.length =
      .ok ([MESH_PACKET_ADV_OVERHEAD + data.length, cfg.MESH_ADV_DATA_TYPE,
        cfg.MESH_UUID % 256, cfg.MESH_UUID / 256,
        handle % 256, handle / 256, version % 256, version / 256] ++ data ++
        rest.drop data.length) := by
    intro x hx; subst hx; exact hcopy
  simp only [mesh_packet_build, hnot, if_false, wr, wr16, set_local_addr_payload,
    List.length_cons, List.set_cons_zero,
    List.set_cons_succ, m1, m2, m3, m4, m5, m6, bind_ok, built, hdrop]
  simp only [Nat.zero_lt_succ, Nat.succ_lt_succ_iff, if_true, bind_ok, List.set_cons_zero,
    List.set_cons_succ, List.length_cons, Nat.lt_add_one, Nat.reduceAdd, Nat.reduceLT]
  have hc := hcopy2 8 rfl
  simp only [List.cons_append, List.nil_append] at hc
  by_cases h0 : data.length > 0
  · rw [if_pos h0, hc]
    rfl
  · have hnil : data = [] := List.length_eq_zero.mp (by omega)
    subst hnil
    rfl

theorem rd16_ok {buf : List Nat} {i lo hi : Nat} (h0 : buf[i]? = some lo)
    (h1 : buf[i + 1]? = some hi) : rd16 buf i = .ok (lo + 256 * hi) := by
  simp only [rd16, rd_ok h0, rd_ok h1, bind_ok]
  rfl

theorem adv_data_get_loop_match (cfg : Config) (payload : List Nat) (fuel off lo hi : Nat)
    (htype : payload[off + 1]? = some cfg.MESH_ADV_DATA_TYPE)
    (hlo : payload[off + 2]? = some lo) (hhi : payload[off + 2 + 1]? = some hi)
    (huuid : lo + 256 * hi = cfg.MESH_UUID) :
    mesh_packet_adv_data_get_loop cfg payload (fuel + 1) off = .ok (some off) := by
  simp only [mesh_packet_adv_data_get_loop, rd_ok htype, rd16_ok hlo hhi, bind_ok, huuid,
    ne_eq, not_true_eq_false, if_false, decide_False]
  rfl

theorem built_located (cfg : Config) (provider : nrf_code × ble_gap_addr_t)
    (p : mesh_packet_t) (handle version : Nat) (data : List Nat)
    (hn : data.length ≤ RBC_MESH_VALUE_MAX_LEN) :
    mesh_packet_adv_data_get cfg (some (built cfg provider p handle version data)) =
      .ok (some 0) := by
  have hlen : ¬ MESH_PACKET_ADV_OVERHEAD + data.length >
      MESH_PACKET_ADV_OVERHEAD + RBC_MESH_VALUE_MAX_LEN := by
    simp only [RBC_MESH_VALUE_MAX_LEN] at hn ⊢; omega
  have hloop := adv_data_get_loop_match cfg (built cfg provider p handle version data).payload
    BLE_ADV_PACKET_PAYLOAD_MAX_LENGTH 0 (cfg.MESH_UUID % 256) (cfg.MESH_UUID / 256)
    rfl rfl rfl (Nat.mod_add_div _ _)
  have h0 : (built cfg provider p handle version data).payload[0]? =
      some (MESH_PACKET_ADV_OVERHEAD + data.length) := rfl
  simp only [mesh_packet_adv_data_get, hloop, bind_ok, rd_ok h0, hlen, if_false]
  rfl

theorem built_handle (cfg : Config) (provider : nrf_code × ble_gap_addr_t)
    (p : mesh_packet_t) (handle version : Nat) (data : List Nat)
    (hn : data.length ≤ RBC_MESH_VALUE_MAX_LEN) :
    mesh_packet_handle_get cfg (some (built cfg provider p handle version data)) =
      .ok handle := by
  have hh : handle % 256 + 256 * (handle / 256) = handle := Nat.mod_add_div _ _
  have h4 : (built cfg provider p handle version data).payload[4]? = some (handle % 256) := rfl
  have h5 : (built cfg provider p handle version data).payload[4 + 1]? =
      some (handle / 256) := rfl
  simp only [mesh_packet_handle_get, built_located cfg provider p handle version data hn,
    bind_ok, rd16_ok h4 h5, hh]

/-- C1: after a successful `mesh_packet_build` with handle `h` and `n` data
bytes, `mesh_packet_handle_get` returns `h`, `mesh_packet_adv_data_get`
returns the record at payload offset 0, and the `n` bytes after its version
field are the data. -/
theorem mesh_packet_build_round_trip (cfg : Config) (provider : nrf_code × ble_gap_addr_t)
    (p : mesh_packet_t) (handle version : Nat) (data : List Nat)
    (hpay : p.payload.length = BLE_ADV_PACKET_PAYLOAD_MAX_LENGTH)
    (hn : data.length ≤ RBC_MESH_VALUE_MAX_LEN)
    (htype : cfg.MESH_ADV_DATA_TYPE < 256) (huuid : cfg.MESH_UUID < 65536)
    (hh : handle < 65536) (hv : version < 65536) :
    ∃ q, mesh_packet_build cfg provider (some p) handle version (some data) data.length =
        .ok (NRF_SUCCESS, some q) ∧
      mesh_packet_handle_get cfg (some q) = .ok handle ∧
      mesh_packet_adv_data_get cfg (some q) = .ok (some 0) ∧
      (q.payload.drop 8).take data.length = data := by
  refine ⟨built cfg provider p handle version data,
    mesh_packet_build_eq cfg provider p handle version data hpay hn htype huuid hh hv,
    built_handle cfg provider p handle version data hn,
    built_located cfg provider p handle version data hn, ?_⟩
  simp [built]

/-- Witness of C1: the sample packet, handle `0x1234`, version 5, three data
bytes. -/
theorem mesh_packet_build_round_trip_witness :
    (sample_packet.payload.length = BLE_ADV_PACKET_PAYLOAD_MAX_LENGTH ∧
      [9, 8, 7].length ≤ RBC_MESH_VALUE_MAX_LEN ∧
      sample_cfg.MESH_ADV_DATA_TYPE < 256 ∧ sample_cfg.MESH_UUID < 65536 ∧
      0x1234 < 65536 ∧ 5 < 65536) ∧
    ∃ q, mesh_packet_build sample_cfg sample_provider (some sample_packet) 0x1234 5
          (some [9, 8, 7]) [9, 8, 7].length = .ok (NRF_SUCCESS, some q) ∧
      mesh_packet_handle_get sample_cfg (some q) = .ok 0x1234 ∧
      mesh_packet_adv_data_get sample_cfg (some q) = .ok (some 0) ∧
      (q.payload.drop 8).take [9, 8, 7].length = [9, 8, 7] :=
  ⟨by decide,
    mesh_packet_build_round_trip sample_cfg sample_provider sample_packet 0x1234 5 [9, 8, 7]
      (by decide) (by decide) (by decide) (by decide) (by decide) (by decide)⟩

/-- C9: with a length above `RBC_MESH_VALUE_MAX_LEN`, `mesh_packet_build`
returns `NRF_ERROR_INVALID_LENGTH` and the packet is what it was, whatever
the local-address provider answers. -/
theorem mesh_packet_build_invalid_length (cfg : Config)
    (provider : nrf_code × ble_gap_addr_t) (p : mesh_packet_t) (handle version : Nat)
    (data : Option (List Nat)) (length : Nat) (hlen : length > RBC_MESH_VALUE_MAX_LEN) :
    mesh_packet_build cfg provider (some p) handle version data length =
      .ok (NRF_ERROR_INVALID_LENGTH, some p) := by
  simp only [mesh_packet_build, hlen, if_true]
  rfl

/-- Witness of C9: 24 data bytes, one more than the maximum, on the sample
packet. -/
theorem mesh_packet_build_invalid_length_witness :
    RBC_MESH_VALUE_MAX_LEN + 1 > RBC_MESH_VALUE_MAX_LEN ∧
    mesh_packet_build sample_cfg sample_provider (some sample_packet) 0x1234 5
        (some (List.replicate 24 0x5A)) (RBC_MESH_VALUE_MAX_LEN + 1) =
      .ok (NRF_ERROR_INVALID_LENGTH, some sample_packet) :=
  ⟨by decide,
    mesh_packet_build_invalid_length sample_cfg sample_provider sample_packet 0x1234 5
      (some (List.replicate 24 0x5A)) (RBC_MESH_VALUE_MAX_LEN + 1) (by decide)⟩

/-- C10: a successful `mesh_packet_build` with `n` data bytes leaves in the
payload, from offset 0: the length byte `7 + n`, the type tag, the magic,
the handle and the version (16-bit fields low byte first), the data at
offsets `8 .. 8 + n - 1`, and the old bytes from offset `8 + n` on; the
header length is `MESH_PACKET_OVERHEAD + n` and the PDU type is the
non-connectable advertisement. -/
theorem mesh_packet_build_wire_format (cfg : Config) (provider : nrf_code × ble_gap_addr_t)
    (p : mesh_packet_t) (handle version : Nat) (data : List Nat)
    (hpay : p.payload.length = BLE_ADV_PACKET_PAYLOAD_MAX_LENGTH)
    (hn : data.length ≤ RBC_MESH_VALUE_MAX_LEN)
    (htype : cfg.MESH_ADV_DATA_TYPE < 256) (huuid : cfg.MESH_UUID < 65536)
    (hh : handle < 65536) (hv : version < 65536) :
    ∃ q, mesh_packet_build cfg provider (some p) handle version (some data) data.length =
        .ok (NRF_SUCCESS, some q) ∧
      q.payload =
        [7 + data.length, cfg.MESH_ADV_DATA_TYPE, cfg.MESH_UUID % 256, cfg.MESH_UUID / 256,
          handle % 256, handle / 256, version % 256, version / 256] ++ data ++
          p.payload.drop (8 + data.length) ∧
      q.payload.length = BLE_ADV_PACKET_PAYLOAD_MAX_LENGTH ∧
      (∀ k, 8 + data.length ≤ k → q.payload[k]? = p.payload[k]?) ∧
      q.header.length = MESH_PACKET_OVERHEAD + data.length ∧
      q.header.type = cfg.BLE_PACKET_TYPE_ADV_NONCONN_IND := by
  have hn2 : data.length ≤ 23 := hn
  have hpay2 : p.payload.length = 31 := hpay
  refine ⟨built cfg provider p handle version data,
    mesh_packet_build_eq cfg provider p handle version data hpay hn htype huuid hh hv,
    rfl, ?_, ?_, rfl, rfl⟩
  · simp only [built, List.length_append, List.length_cons, List.length_nil, List.length_drop,
      BLE_ADV_PACKET_PAYLOAD_MAX_LENGTH, MESH_PACKET_ADV_OVERHEAD]
    omega
  · intro k hk
    have hpre : ([MESH_PACKET_ADV_OVERHEAD + data.length, cfg.MESH_ADV_DATA_TYPE,
        cfg.MESH_UUID % 256, cfg.MESH_UUID / 256,
        handle % 256, handle / 256, version % 256, version / 256] ++ data).length =
        8 + data.length := by
      simp; omega
    simp only [built]
    rw [List.getElem?_append_right (by rw [hpre]; exact hk), hpre, List.getElem?_drop]
    congr 1
    omega

/-- Witness of C10: the sample packet, handle `0x1234`, version 5, three
data bytes. -/
theorem mesh_packet_build_wire_format_witness :
    (sample_packet.payload.length = BLE_ADV_PACKET_PAYLOAD_MAX_LENGTH ∧
      [9, 8, 7].length ≤ RBC_MESH_VALUE_MAX_LEN ∧
      sample_cfg.MESH_ADV_DATA_TYPE < 256 ∧ sample_cfg.MESH_UUID < 65536 ∧
      0x1234 < 65536 ∧ 5 < 65536) ∧
    ∃ q, mesh_packet_build sample_cfg sample_provider (some sample_packet) 0x1234 5
          (some [9, 8, 7]) 3 = .ok (NRF_SUCCESS, some q) ∧
      q.payload = [10, 0x16, 0xE4, 0xFE, 0x34, 0x12, 5, 0, 9, 8, 7] ++ List.replicate 20 0xAA ∧
      q.payload.length = 31 ∧
      (∀ k, 11 ≤ k → q.payload[k]? = sample_packet.payload[k]?) ∧
      q.header.length = 17 ∧
      q.header.type = 2 :=
  ⟨by decide,
    mesh_packet_build_wire_format sample_cfg sample_provider sample_packet 0x1234 5 [9, 8, 7]
      (by decide) (by decide) (by decide) (by decide) (by decide) (by decide)⟩

/-! ## The locator -/

theorem sizeof_mesh_adv_data_t_eq : sizeof_mesh_adv_data_t = 31 := rfl

theorem signature_at_zero_iff (cfg : Config) (a0 a1 a2 a3 : Nat) (rest : List Nat) :
    signature_at cfg (a0 :: a1 :: a2 :: a3 :: rest) 0 ↔
      a1 = cfg.MESH_ADV_DATA_TYPE ∧ a2 + 256 * a3 = cfg.MESH_UUID := by
  have h2 : (a0 :: a1 :: a2 :: a3 :: rest)[0 + 2]? = some a2 := rfl
  have h3 : (a0 :: a1 :: a2 :: a3 :: rest)[0 + 2 + 1]? = some a3 := by simp
  simp only [signature_at, rd16_ok h2 h3]
  constructor
  · rintro ⟨h1, h⟩
    exact ⟨by simpa using h1, by injection h⟩
  · rintro ⟨h1, h⟩
    exact ⟨by simp [h1], by rw [h]⟩

/-- First iteration of the locator on a payload of at least four bytes: the
record at offset 0 is returned when it carries the signature; otherwise the
cursor moves by whole records of 31 bytes, leaves the payload, and the
result is `NULL`. -/
theorem adv_data_get_loop_zero (cfg : Config) (a0 a1 a2 a3 : Nat) (rest : List Nat)
    (fuel : Nat) :
    mesh_packet_adv_data_get_loop cfg (a0 :: a1 :: a2 :: a3 :: rest) (fuel + 1) 0 =
      .ok (if signature_at cfg (a0 :: a1 :: a2 :: a3 :: rest) 0 then some 0 else none) := by
  have h0 : (a0 :: a1 :: a2 :: a3 :: rest)[0]? = some a0 := rfl
  have h1 : (a0 :: a1 :: a2 :: a3 :: rest)[0 + 1]? = some a1 := rfl
  have h2 : (a0 :: a1 :: a2 :: a3 :: rest)[0 + 2]? = some a2 := rfl
  have h3 : (a0 :: a1 :: a2 :: a3 :: rest)[0 + 2 + 1]? = some a3 := by simp
  have hjump : BLE_ADV_PACKET_PAYLOAD_MAX_LENGTH ≤ (a0 + 1) * sizeof_mesh_adv_data_t := by
    simp only [sizeof_mesh_adv_data_t_eq, BLE_ADV_PACKET_PAYLOAD_MAX_LENGTH]; omega
  simp only [mesh_packet_adv_data_get_loop, rd_ok h0, rd_ok h1, rd16_ok h2 h3, bind_ok,
    signature_at_zero_iff]
  by_cases ht : a1 = cfg.MESH_ADV_DATA_TYPE
  · by_cases hu : a2 + 256 * a3 = cfg.MESH_UUID
    · simp [ht, hu]; rfl
    · simp [ht, hu, bind_ok, hjump]; rfl
  · simp [ht, bind_ok, hjump]; rfl

/-! ## One iteration of the chain walks -/

theorem bind_error {α β : Type} (e : Fault) (f : α → Except Fault β) :
    ((Except.error e : Except Fault α) >>= f) = .error e := rfl

theorem rd_ne_out_of_fuel (buf : List Nat) (i : Nat) : rd buf i ≠ .error .out_of_fuel := by
  unfold rd
  split <;> simp

theorem rd16_ne_out_of_fuel (buf : List Nat) (i : Nat) : rd16 buf i ≠ .error .out_of_fuel := by
  unfold rd16
  rcases h0 : rd buf i with e | lo
  · intro h
    exact rd_ne_out_of_fuel buf i (by rw [h0]; simpa [bind_error] using h)
  · rcases h1 : rd buf (i + 1) with e | hi
    · intro h
      exact rd_ne_out_of_fuel buf (i + 1) (by rw [h1]; simpa [bind_ok, bind_error] using h)
    · simp [bind_ok]

theorem signature_differs_ne_out_of_fuel (cfg : Config) (payload : List Nat) (off : Nat) :
    signature_differs cfg payload off ≠ .error .out_of_fuel := by
  unfold signature_differs
  rcases h0 : rd payload (off + 1) with e | ty
  · intro h
    exact rd_ne_out_of_fuel payload (off + 1) (by rw [h0]; simpa [bind_error] using h)
  · simp only [bind_ok]
    split_ifs
    · intro h; cases h
    · rcases h1 : rd16 payload (off + 2) with e | u
      · intro h
        exact rd16_ne_out_of_fuel payload (off + 2) (by rw [h1]; simpa [bind_error] using h)
      · intro h; cases h

theorem loop_get_step (cfg : Config) (payload : List Nat) (fuel off : Nat) :
    mesh_packet_adv_data_get_loop cfg payload (fuel + 1) off =
      (signature_differs cfg payload off >>= fun differs =>
        if differs then
          rd payload off >>= fun adv_data_length =>
            if off + (adv_data_length + 1) * sizeof_mesh_adv_data_t ≥
                BLE_ADV_PACKET_PAYLOAD_MAX_LENGTH then
              pure none
            else
              mesh_packet_adv_data_get_loop cfg payload fuel
                (off + (adv_data_length + 1) * sizeof_mesh_adv_data_t)
        else pure (some off)) := by
  simp only [mesh_packet_adv_data_get_loop, signature_differs]
  rcases rd payload (off + 1) with e | ty
  · rfl
  · simp only [bind_ok]
    split_ifs <;> first | rfl | (rcases rd16 payload (off + 2) with e | u <;> rfl)

theorem loop_has_step (cfg : Config) (p : mesh_packet_t) (fuel off : Nat) :
    mesh_packet_has_additional_data_loop cfg p (fuel + 1) off =
      if (off : Int) < (p.header.length : Int) - 7 then
        signature_differs cfg p.payload off >>= fun differs =>
          if differs then pure true
          else
            rd p.payload off >>= fun adv_data_length =>
              mesh_packet_has_additional_data_loop cfg p fuel
                (off + (adv_data_length + 1) * sizeof_mesh_adv_data_t)
      else pure false := by
  simp only [mesh_packet_has_additional_data_loop, signature_differs]
  split_ifs with hb
  · rcases rd p.payload (off + 1) with e | ty
    · rfl
    · simp only [bind_ok]
      split_ifs <;> first | rfl | (rcases rd16 p.payload (off + 2) with e | u <;> rfl)
  · rfl

/-! ## Termination of the chain walks -/

theorem cursor_advances (off adv_data_length : Nat) :
    off + 1 ≤ off + (adv_data_length + 1) * sizeof_mesh_adv_data_t := by
  simp only [sizeof_mesh_adv_data_t_eq]; omega

/-- The locator loop only needs as many iterations as bytes lie between the
cursor and the capacity: with at least that much fuel the result does not
depend on the fuel and is not `out_of_fuel`. -/
theorem loop_get_fuel (cfg : Config) (payload : List Nat) :
    ∀ (fuel off fuel2 : Nat),
      BLE_ADV_PACKET_PAYLOAD_MAX_LENGTH ≤ off + (fuel + 1) →
      BLE_ADV_PACKET_PAYLOAD_MAX_LENGTH ≤ off + (fuel2 + 1) →
      mesh_packet_adv_data_get_loop cfg payload (fuel + 1) off =
        mesh_packet_adv_data_get_loop cfg payload (fuel2 + 1) off ∧
      mesh_packet_adv_data_get_loop cfg payload (fuel + 1) off ≠ .error .out_of_fuel := by
  intro fuel
  induction fuel with
  | zero =>
    intro off fuel2 h1 _
    have hexit : ∀ len, off + (len + 1) * sizeof_mesh_adv_data_t ≥
        BLE_ADV_PACKET_PAYLOAD_MAX_LENGTH := by
      intro len
      have := cursor_advances off len
      omega
    rw [loop_get_step, loop_get_step]
    rcases hd : signature_differs cfg payload off with e | b
    · exact ⟨rfl, fun h => signature_differs_ne_out_of_fuel cfg payload off (by
        rw [hd]; simpa [bind_error] using h)⟩
    · cases b
      · exact ⟨rfl, by intro h; cases h⟩
      · simp only [bind_ok, if_true]
        rcases hl : rd payload off with e | len
        · exact ⟨rfl, fun h => rd_ne_out_of_fuel payload off (by
            rw [hl]; simpa [bind_error] using h)⟩
        · simp only [bind_ok, hexit len, if_true]
          exact ⟨by first | rfl | trivial, by intro h; cases h⟩
  | succ g ih =>
    intro off fuel2 h1 h2
    rw [loop_get_step, loop_get_step]
    rcases hd : signature_differs cfg payload off with e | b
    · exact ⟨rfl, fun h => signature_differs_ne_out_of_fuel cfg payload off (by
        rw [hd]; simpa [bind_error] using h)⟩
    · cases b
      · exact ⟨rfl, by intro h; cases h⟩
      · simp only [bind_ok, if_true]
        rcases hl : rd payload off with e | len
        · exact ⟨rfl, fun h => rd_ne_out_of_fuel payload off (by
            rw [hl]; simpa [bind_error] using h)⟩
        · simp only [bind_ok]
          have hadv := cursor_advances off len
          by_cases hexit : off + (len + 1) * sizeof_mesh_adv_data_t ≥
              BLE_ADV_PACKET_PAYLOAD_MAX_LENGTH
          · simp only [hexit, if_true]
            exact ⟨by first | rfl | trivial, by intro h; cases h⟩
          · simp only [hexit, if_false]
            obtain ⟨f2, rfl⟩ : ∃ f2, fuel2 = f2 + 1 := ⟨fuel2 - 1, by omega⟩
            exact ih _ f2 (by omega) (by omega)

/-- The loop of `mesh_packet_has_additional_data` only needs as many
iterations as bytes lie between the cursor and the bound
`header.length - 7`. -/
theorem loop_has_fuel (cfg : Config) (p : mesh_packet_t) :
    ∀ (fuel off fuel2 : Nat),
      (p.header.length : Int) - 7 ≤ (off : Int) + fuel →
      (p.header.length : Int) - 7 ≤ (off : Int) + fuel2 →
      mesh_packet_has_additional_data_loop cfg p (fuel + 1) off =
        mesh_packet_has_additional_data_loop cfg p (fuel2 + 1) off ∧
      mesh_packet_has_additional_data_loop cfg p (fuel + 1) off ≠ .error .out_of_fuel := by
  intro fuel
  induction fuel with
  | zero =>
    intro off fuel2 h1 _
    have hb : ¬ (off : Int) < (p.header.length : Int) - 7 := by omega
    rw [loop_has_step, loop_has_step]
    simp only [hb, if_false]
    exact ⟨by first | rfl | trivial, by intro h; cases h⟩
  | succ g ih =>
    intro off fuel2 h1 h2
    rw [loop_has_step, loop_has_step]
    by_cases hb : (off : Int) < (p.header.length : Int) - 7
    · simp only [hb, if_true]
      rcases hd : signature_differs cfg p.payload off with e | b
      · exact ⟨rfl, fun h => signature_differs_ne_out_of_fuel cfg p.payload off (by
          rw [hd]; simpa [bind_error] using h)⟩
      · cases b
        · simp only [bind_ok]
          rcases hl : rd p.payload off with e | len
          · exact ⟨rfl, fun h => rd_ne_out_of_fuel p.payload off (by
              rw [hl]; simpa [bind_error] using h)⟩
          · simp only [bind_ok]
            have hadv := cursor_advances off len
            obtain ⟨f2, rfl⟩ : ∃ f2, fuel2 = f2 + 1 := ⟨fuel2 - 1, by omega⟩
            simp only [Bool.false_eq_true, if_false, bind_ok]
            generalize off + (len + 1) * sizeof_mesh_adv_data_t = off2 at hadv ⊢
            exact ih off2 f2 (by omega) (by omega)
        · exact ⟨rfl, by intro h; cases h⟩
    · simp only [hb, if_false]
      exact ⟨by first | rfl | trivial, by intro h; cases h⟩

/-- C20: both chain walks end on every payload and every 8-bit header
length.  Each iteration moves the cursor forward by at least one byte;
for the locator 31 iterations are enough, for
`mesh_packet_has_additional_data` 256, more fuel changes nothing, and neither
function ends for lack of fuel. -/
theorem mesh_packet_walks_terminate (cfg : Config) (p : mesh_packet_t)
    (hlen : p.header.length < 256) :
    (∀ off adv_data_length : Nat,
      off + 1 ≤ off + (adv_data_length + 1) * sizeof_mesh_adv_data_t) ∧
    (∀ fuel, BLE_ADV_PACKET_PAYLOAD_MAX_LENGTH ≤ fuel →
      mesh_packet_adv_data_get_loop cfg p.payload fuel 0 =
        mesh_packet_adv_data_get_loop cfg p.payload BLE_ADV_PACKET_PAYLOAD_MAX_LENGTH 0) ∧
    mesh_packet_adv_data_get_loop cfg p.payload BLE_ADV_PACKET_PAYLOAD_MAX_LENGTH 0 ≠
      .error .out_of_fuel ∧
    mesh_packet_adv_data_get cfg (some p) ≠ .error .out_of_fuel ∧
    (∀ fuel, 256 ≤ fuel →
      mesh_packet_has_additional_data_loop cfg p fuel 0 =
        mesh_packet_has_additional_data_loop cfg p 256 0) ∧
    mesh_packet_has_additional_data cfg (some p) ≠ .error .out_of_fuel := by
  have hcap : BLE_ADV_PACKET_PAYLOAD_MAX_LENGTH = 30 + 1 := rfl
  refine ⟨cursor_advances, ?_, ?_, ?_, ?_, ?_⟩
  · intro fuel hf
    obtain ⟨f, rfl⟩ : ∃ f, fuel = f + 1 := ⟨fuel - 1, by omega⟩
    rw [hcap]
    exact (loop_get_fuel cfg p.payload f 0 30 (by omega) (by omega)).1
  · rw [hcap]
    exact (loop_get_fuel cfg p.payload 30 0 30 (by omega) (by omega)).2
  · have h := (loop_get_fuel cfg p.payload 31 0 31 (by omega) (by omega)).2
    simp only [mesh_packet_adv_data_get]
    rcases hr : mesh_packet_adv_data_get_loop cfg p.payload
      (BLE_ADV_PACKET_PAYLOAD_MAX_LENGTH + 1) 0 with e | r
    · intro h2
      apply h
      rw [hcap] at hr
      rw [hr]
      simpa [bind_error] using h2
    · simp only [bind_ok]
      cases r with
      | none => intro h2; cases h2
      | some off =>
        simp only []
        rcases hl : rd p.payload off with e | len
        · intro h2
          exact rd_ne_out_of_fuel p.payload off (by rw [hl]; simpa [bind_error] using h2)
        · simp only [bind_ok]
          split_ifs <;> intro h2 <;> cases h2
  · intro fuel hf
    obtain ⟨f, rfl⟩ : ∃ f, fuel = f + 1 := ⟨fuel - 1, by omega⟩
    exact (loop_has_fuel cfg p f 0 255 (by push_cast; omega) (by push_cast; omega)).1
  · simp only [mesh_packet_has_additional_data]
    exact (loop_has_fuel cfg p 255 0 255 (by push_cast; omega) (by push_cast; omega)).2

/-- Witness of C20 on the sample chain packet: the locator leaves the payload
after the first record, and the other walk stops at that record. -/
theorem mesh_packet_walks_terminate_witness :
    chain_packet.header.length < 256 ∧
    mesh_packet_adv_data_get sample_cfg (some chain_packet) ≠ .error .out_of_fuel ∧
    mesh_packet_has_additional_data sample_cfg (some chain_packet) ≠ .error .out_of_fuel :=
  ⟨by decide,
    (mesh_packet_walks_terminate sample_cfg chain_packet (by decide)).2.2.2.1,
    (mesh_packet_walks_terminate sample_cfg chain_packet (by decide)).2.2.2.2.2⟩

/-! ## What the locator returns -/

theorem payload_four (payload : List Nat)
    (h : payload.length = BLE_ADV_PACKET_PAYLOAD_MAX_LENGTH) :
    ∃ a0 a1 a2 a3 rest, payload = a0 :: a1 :: a2 :: a3 :: rest := by
  simp only [BLE_ADV_PACKET_PAYLOAD_MAX_LENGTH] at h
  rcases payload with _ | ⟨a0, _ | ⟨a1, _ | ⟨a2, _ | ⟨a3, rest⟩⟩⟩⟩ <;> simp at h
  exact ⟨a0, a1, a2, a3, rest, rfl⟩

/-- On a payload of 31 bytes the locator returns the record at offset 0 when
it carries the signature and declares at most 30 bytes, and `NULL` in every
other case. -/
theorem adv_data_get_eq (cfg : Config) (p : mesh_packet_t)
    (hpay : p.payload.length = BLE_ADV_PACKET_PAYLOAD_MAX_LENGTH) :
    ∃ L, p.payload[0]? = some L ∧
      mesh_packet_adv_data_get cfg (some p) =
        .ok (if signature_at cfg p.payload 0 ∧
            L ≤ MESH_PACKET_ADV_OVERHEAD + RBC_MESH_VALUE_MAX_LEN then some 0 else none) := by
  obtain ⟨a0, a1, a2, a3, rest, hp⟩ := payload_four p.payload hpay
  refine ⟨a0, by rw [hp]; rfl, ?_⟩
  have h0 : p.payload[0]? = some a0 := by rw [hp]; rfl
  simp only [mesh_packet_adv_data_get]
  rw [hp, adv_data_get_loop_zero, ← hp]
  by_cases hs : signature_at cfg p.payload 0
  · simp only [hs, if_true, bind_ok, rd_ok h0, true_and]
    by_cases hL : a0 ≤ MESH_PACKET_ADV_OVERHEAD + RBC_MESH_VALUE_MAX_LEN
    · simp only [hL, if_true, Nat.not_lt.mpr hL, gt_iff_lt, if_false]; rfl
    · simp only [hL, if_false, Nat.lt_of_not_le hL, gt_iff_lt, if_true]; rfl
  · simp only [hs, if_false, bind_ok, false_and]; rfl

theorem located_validated (cfg : Config) (p : mesh_packet_t)
    (hpay : p.payload.length = BLE_ADV_PACKET_PAYLOAD_MAX_LENGTH) (k : Nat)
    (hget : mesh_packet_adv_data_get cfg (some p) = .ok (some k)) :
    k = 0 ∧ ∃ L, p.payload[k]? = some L ∧ signature_at cfg p.payload k ∧
      L ≤ MESH_PACKET_ADV_OVERHEAD + RBC_MESH_VALUE_MAX_LEN ∧
      k + 1 + L ≤ BLE_ADV_PACKET_PAYLOAD_MAX_LENGTH := by
  obtain ⟨L, h0, heq⟩ := adv_data_get_eq cfg p hpay
  rw [heq] at hget
  by_cases hc : signature_at cfg p.payload 0 ∧
      L ≤ MESH_PACKET_ADV_OVERHEAD + RBC_MESH_VALUE_MAX_LEN
  · rw [if_pos hc] at hget
    have hk : k = 0 := by injection hget with h; injection h with h; exact h.symm
    subst hk
    refine ⟨rfl, L, h0, hc.1, hc.2, ?_⟩
    have := hc.2
    simp only [MESH_PACKET_ADV_OVERHEAD, RBC_MESH_VALUE_MAX_LEN,
      BLE_ADV_PACKET_PAYLOAD_MAX_LENGTH] at this ⊢
    omega
  · rw [if_neg hc] at hget
    injection hget with h
    cases h

/-- C12: on every content of the 31-byte payload the locator ends with a
result, so each of its reads, all bounds-checked, lies inside the payload;
and when the record at offset 0 does not carry the signature the cursor
moves to or past the capacity and the result is `NULL`. -/
theorem mesh_packet_adv_data_get_in_bounds (cfg : Config) (p : mesh_packet_t)
    (hpay : p.payload.length = BLE_ADV_PACKET_PAYLOAD_MAX_LENGTH) :
    (∃ r, mesh_packet_adv_data_get cfg (some p) = .ok r) ∧
    mesh_packet_adv_data_get cfg (some p) ≠ .error .out_of_bounds ∧
    (∀ L : Nat, BLE_ADV_PACKET_PAYLOAD_MAX_LENGTH ≤ 0 + (L + 1) * sizeof_mesh_adv_data_t) ∧
    (¬ signature_at cfg p.payload 0 →
      mesh_packet_adv_data_get cfg (some p) = .ok none) := by
  obtain ⟨L, _, heq⟩ := adv_data_get_eq cfg p hpay
  refine ⟨⟨_, heq⟩, (by rw [heq]; intro h; cases h), ?_, ?_⟩
  · intro L
    simp only [sizeof_mesh_adv_data_t_eq, BLE_ADV_PACKET_PAYLOAD_MAX_LENGTH]; omega
  · intro hs
    rw [heq, if_neg (fun h => hs h.1)]

/-- Witness of C12: the length byte of the sample packet's first record is
followed by a chain the walk never enters; the result is `NULL`. -/
theorem mesh_packet_adv_data_get_in_bounds_witness :
    sample_packet.payload.length = BLE_ADV_PACKET_PAYLOAD_MAX_LENGTH ∧
    ¬ signature_at sample_cfg sample_packet.payload 0 ∧
    mesh_packet_adv_data_get sample_cfg (some sample_packet) = .ok none :=
  ⟨by decide, by decide,
    (mesh_packet_adv_data_get_in_bounds sample_cfg sample_packet (by decide)).2.2.2
      (by decide)⟩

/-- C18: a record the locator returns carries the signature, declares at
most `MESH_PACKET_ADV_OVERHEAD + RBC_MESH_VALUE_MAX_LEN` bytes and lies
inside the payload buffer; a record with the signature and a larger declared
length makes the result `NULL`. -/
theorem mesh_packet_adv_data_get_validated (cfg : Config) (p : mesh_packet_t)
    (hpay : p.payload.length = BLE_ADV_PACKET_PAYLOAD_MAX_LENGTH) :
    (∀ k, mesh_packet_adv_data_get cfg (some p) = .ok (some k) →
      ∃ L, p.payload[k]? = some L ∧ signature_at cfg p.payload k ∧
        L ≤ MESH_PACKET_ADV_OVERHEAD + RBC_MESH_VALUE_MAX_LEN ∧
        k + 1 + L ≤ BLE_ADV_PACKET_PAYLOAD_MAX_LENGTH) ∧
    (∀ k L, mesh_packet_adv_data_get_loop cfg p.payload
          (BLE_ADV_PACKET_PAYLOAD_MAX_LENGTH + 1) 0 = .ok (some k) →
        p.payload[k]? = some L →
        L > MESH_PACKET_ADV_OVERHEAD + RBC_MESH_VALUE_MAX_LEN →
        mesh_packet_adv_data_get cfg (some p) = .ok none) ∧
    (∀ L, signature_at cfg p.payload 0 → p.payload[0]? = some L →
        L > MESH_PACKET_ADV_OVERHEAD + RBC_MESH_VALUE_MAX_LEN →
        mesh_packet_adv_data_get cfg (some p) = .ok none) := by
  refine ⟨fun k hget => (located_validated cfg p hpay k hget).2, ?_, ?_⟩
  · intro k L hloop hL hbig
    simp only [mesh_packet_adv_data_get, hloop, bind_ok, rd_ok hL, hbig, if_true]
    rfl
  · intro L _ h0 hbig
    obtain ⟨L2, h02, heq⟩ := adv_data_get_eq cfg p hpay
    rw [h0] at h02
    injection h02 with h
    subst h
    rw [heq, if_neg (fun h => Nat.not_le.mpr hbig h.2)]

/-- Witness of C18: the sample packet with an oversized record, and the
sample packet with a record and trailing data. -/
theorem mesh_packet_adv_data_get_validated_witness :
    (oversized_packet.payload.length = BLE_ADV_PACKET_PAYLOAD_MAX_LENGTH ∧
      signature_at sample_cfg oversized_packet.payload 0 ∧
      oversized_packet.payload[0]? = some 31) ∧
    mesh_packet_adv_data_get sample_cfg (some oversized_packet) = .ok none :=
  ⟨by decide,
    (mesh_packet_adv_data_get_validated sample_cfg oversized_packet (by decide)).2.2 31
      (by decide) (by decide) (by decide)⟩

/-! ## Nothing found -/

/-- C15: when the locator finds no application record,
`mesh_packet_adv_data_sanitize` returns `NRF_ERROR_INVALID_DATA` and leaves
the packet as it was, and `mesh_packet_handle_get` returns
`RBC_MESH_INVALID_HANDLE`; on a 31-byte payload that is the case when the
record at offset 0 lacks the signature and when it carries it with an
oversized declared length. -/
theorem mesh_packet_not_found (cfg : Config) (p : mesh_packet_t)
    (hget : mesh_packet_adv_data_get cfg (some p) = .ok none) :
    mesh_packet_adv_data_sanitize cfg (some p) = .ok (NRF_ERROR_INVALID_DATA, some p) ∧
    mesh_packet_handle_get cfg (some p) = .ok cfg.RBC_MESH_INVALID_HANDLE ∧
    (∀ q : mesh_packet_t, q.payload.length = BLE_ADV_PACKET_PAYLOAD_MAX_LENGTH →
      (¬ signature_at cfg q.payload 0 ∨
        ∃ L, q.payload[0]? = some L ∧
          L > MESH_PACKET_ADV_OVERHEAD + RBC_MESH_VALUE_MAX_LEN) →
      mesh_packet_adv_data_get cfg (some q) = .ok none) := by
  refine ⟨?_, ?_, ?_⟩
  · simp only [mesh_packet_adv_data_sanitize, hget, bind_ok]
    rfl
  · simp only [mesh_packet_handle_get, hget, bind_ok]
    rfl
  · intro q hq hcase
    obtain ⟨L, h0, heq⟩ := adv_data_get_eq cfg q hq
    rw [heq, if_neg]
    rintro ⟨hs, hL⟩
    rcases hcase with hns | ⟨L2, h02, hbig⟩
    · exact hns hs
    · rw [h0] at h02
      injection h02 with h
      subst h
      exact Nat.not_le.mpr hbig hL

/-- Witness of C15: the sample packet whose record at offset 0 carries the
signature and declares 31 bytes. -/
theorem mesh_packet_not_found_witness :
    mesh_packet_adv_data_get sample_cfg (some oversized_packet) = .ok none ∧
    mesh_packet_adv_data_sanitize sample_cfg (some oversized_packet) =
      .ok (NRF_ERROR_INVALID_DATA, some oversized_packet) ∧
    mesh_packet_handle_get sample_cfg (some oversized_packet) = .ok 0xFFFF :=
  ⟨by decide, (mesh_packet_not_found sample_cfg oversized_packet (by decide)).1,
    (mesh_packet_not_found sample_cfg oversized_packet (by decide)).2.1⟩

/-! ## Sanitizing -/

/-- The forward byte copy of the sanitizer, started on `orig`: whatever the
distance `src` between source and destination, the first `n` bytes of the
result are the `n` bytes `orig` held from `src` on, and the rest is
untouched. -/
theorem sanitize_loop_invariant (src : Nat) (orig : List Nat) :
    ∀ (n i : Nat) (pl : List Nat), pl.length = orig.length → src + i + n ≤ orig.length →
      (∀ j, j < i → pl[j]? = orig[src + j]?) → (∀ j, i ≤ j → pl[j]? = orig[j]?) →
      ∃ r, mesh_packet_adv_data_sanitize_loop src pl n i = .ok r ∧
        r.length = orig.length ∧
        (∀ j, j < i + n → r[j]? = orig[src + j]?) ∧
        (∀ j, i + n ≤ j → r[j]? = orig[j]?) := by
  intro n
  induction n with
  | zero =>
    intro i pl hlen _ hlow hhigh
    exact ⟨pl, rfl, hlen, hlow, hhigh⟩
  | succ n ih =>
    intro i pl hlen hfit hlow hhigh
    have hsrc : src + i < orig.length := by omega
    have hread : pl[src + i]? = some (orig[src + i]) := by
      rw [hhigh (src + i) (by omega), List.getElem?_eq_getElem hsrc]
    have hi : i < pl.length := by omega
    obtain ⟨r, hr, hrl, hrlow, hrhigh⟩ := ih (i + 1) (pl.set i (orig[src + i]))
      (by simpa using hlen) (by omega)
      (by
        intro j hj
        rcases Nat.eq_or_lt_of_le (Nat.le_of_lt_succ hj) with rfl | hlt
        · simp [List.getElem?_set, hi, List.getElem?_eq_getElem hsrc]
        · rw [List.getElem?_set_ne (by omega)]
          exact hlow j hlt)
      (by
        intro j hj
        rw [List.getElem?_set_ne (by omega)]
        exact hhigh j (by omega))
    refine ⟨r, ?_, hrl, ?_, ?_⟩
    · simp only [mesh_packet_adv_data_sanitize_loop, rd_ok hread, bind_ok, wr_ok _ hi]
      exact hr
    · intro j hj
      exact hrlow j (by omega)
    · intro j hj
      exact hrhigh j (by omega)

theorem sanitize_loop_forward_copy (src n : Nat) (orig : List Nat)
    (hfit : src + n ≤ orig.length) :
    ∃ r, mesh_packet_adv_data_sanitize_loop src orig n 0 = .ok r ∧
      r.length = orig.length ∧
      (∀ j, j < n → r[j]? = orig[src + j]?) ∧
      (∀ j, n ≤ j → r[j]? = orig[j]?) := by
  obtain ⟨r, hr, hl, hlow, hhigh⟩ := sanitize_loop_invariant src orig n 0 orig rfl
    (by omega) (fun j hj => absurd hj (Nat.not_lt_zero j)) (fun j _ => rfl)
  exact ⟨r, hr, hl, fun j hj => hlow j (by omega), fun j hj => hhigh j (by omega)⟩

/-- The sanitizer after the locator: for whatever offset `k` the locator
hands it, with the record inside the payload, it moves the record to offset
0 with the copy loop and sets the header length.  On this code the locator
only hands over `k = 0`. -/
theorem sanitize_located (cfg : Config) (p : mesh_packet_t) (k L : Nat)
    (hget : mesh_packet_adv_data_get cfg (some p) = .ok (some k))
    (hL : p.payload[k]? = some L)
    (hsmall : L ≤ MESH_PACKET_ADV_OVERHEAD + RBC_MESH_VALUE_MAX_LEN)
    (hfit : k + 1 + L ≤ p.payload.length) :
    ∃ payload, mesh_packet_adv_data_sanitize cfg (some p) =
        .ok (NRF_SUCCESS, some { p with
          header := { p.header with
            length := MESH_PACKET_OVERHEAD - MESH_PACKET_ADV_OVERHEAD + L }
          payload := payload }) ∧
      payload.length = p.payload.length ∧
      (∀ i, i ≤ L → payload[i]? = p.payload[k + i]?) ∧
      (∀ j, L < j → payload[j]? = p.payload[j]?) := by
  have hL30 : L ≤ 30 := hsmall
  have hmod : (MESH_PACKET_OVERHEAD - MESH_PACKET_ADV_OVERHEAD + L) % 256 =
      MESH_PACKET_OVERHEAD - MESH_PACKET_ADV_OVERHEAD + L := by
    apply Nat.mod_eq_of_lt
    simp only [MESH_PACKET_OVERHEAD, MESH_PACKET_ADV_OVERHEAD, BLE_GAP_ADDR_LEN]
    omega
  by_cases hk : k = 0
  · subst hk
    refine ⟨p.payload, ?_, rfl, fun i _ => by rw [Nat.zero_add], fun j _ => rfl⟩
    simp only [mesh_packet_adv_data_sanitize, hget, bind_ok, ne_eq, not_true_eq_false,
      if_false, pure_bind, rd_ok hL, hmod]
    rfl
  · have hcount : (L + 1) % 256 = L + 1 := Nat.mod_eq_of_lt (by omega)
    obtain ⟨r, hr, hrl, hrlow, hrhigh⟩ :=
      sanitize_loop_forward_copy k (L + 1) p.payload (by omega)
    have hr0 : r[0]? = some L := by rw [hrlow 0 (by omega), Nat.add_zero, hL]
    refine ⟨r, ?_, hrl, fun i hi => hrlow i (by omega), fun j hj => hrhigh j (by omega)⟩
    simp only [mesh_packet_adv_data_sanitize, hget, bind_ok, ne_eq, hk, not_false_eq_true,
      if_true, pure_bind, rd_ok hL, hcount, hr, rd_ok hr0, hmod]
    rfl

theorem adv_data_get_congr (cfg : Config) (p q : mesh_packet_t) (h : q.payload = p.payload) :
    mesh_packet_adv_data_get cfg (some q) = mesh_packet_adv_data_get cfg (some p) := by
  simp only [mesh_packet_adv_data_get, h]

theorem sanitize_at_zero (cfg : Config) (p : mesh_packet_t) (L : Nat)
    (hget : mesh_packet_adv_data_get cfg (some p) = .ok (some 0))
    (hL : p.payload[0]? = some L) :
    mesh_packet_adv_data_sanitize cfg (some p) =
      .ok (NRF_SUCCESS, some { p with
        header := { p.header with
          length := (MESH_PACKET_OVERHEAD - MESH_PACKET_ADV_OVERHEAD + L) % 256 } }) := by
  simp only [mesh_packet_adv_data_sanitize, hget, bind_ok, ne_eq, not_true_eq_false,
    if_false, pure_bind, rd_ok hL]
  rfl

/-- C14: `mesh_packet_adv_data_sanitize` applied to the packet it left
returns the same status and leaves the same packet. -/
theorem mesh_packet_adv_data_sanitize_idempotent (cfg : Config) (p : mesh_packet_t)
    (hpay : p.payload.length = BLE_ADV_PACKET_PAYLOAD_MAX_LENGTH) :
    ∃ code q, mesh_packet_adv_data_sanitize cfg (some p) = .ok (code, some q) ∧
      mesh_packet_adv_data_sanitize cfg (some q) = .ok (code, some q) := by
  obtain ⟨L, h0, heq⟩ := adv_data_get_eq cfg p hpay
  by_cases hc : signature_at cfg p.payload 0 ∧
      L ≤ MESH_PACKET_ADV_OVERHEAD + RBC_MESH_VALUE_MAX_LEN
  · rw [if_pos hc] at heq
    refine ⟨NRF_SUCCESS, _, sanitize_at_zero cfg p L heq h0, ?_⟩
    exact sanitize_at_zero cfg _ L ((adv_data_get_congr cfg p _ rfl).trans heq) h0
  · rw [if_neg hc] at heq
    have h : mesh_packet_adv_data_sanitize cfg (some p) =
        .ok (NRF_ERROR_INVALID_DATA, some p) := by
      simp only [mesh_packet_adv_data_sanitize, heq, bind_ok]
      rfl
    exact ⟨NRF_ERROR_INVALID_DATA, p, h, h⟩

/-- Witness of C14: the sample packet with a record and a foreign record
behind it is cut to the record by the first call and left alone by the
second. -/
theorem mesh_packet_adv_data_sanitize_idempotent_witness :
    trailing_packet.payload.length = BLE_ADV_PACKET_PAYLOAD_MAX_LENGTH ∧
    ∃ code q, mesh_packet_adv_data_sanitize sample_cfg (some trailing_packet) =
        .ok (code, some q) ∧
      mesh_packet_adv_data_sanitize sample_cfg (some q) = .ok (code, some q) :=
  ⟨by decide, mesh_packet_adv_data_sanitize_idempotent sample_cfg trailing_packet (by decide)⟩

/-! ## One record after a build -/

theorem signature_differs_of_signature (cfg : Config) (payload : List Nat) (off : Nat)
    (h : signature_at cfg payload off) : signature_differs cfg payload off = .ok false := by
  obtain ⟨h1, h2⟩ := h
  simp only [signature_differs, rd_ok h1, bind_ok, ne_eq, not_true_eq_false, if_false, h2,
    decide_False]
  rfl

theorem built_signature (cfg : Config) (provider : nrf_code × ble_gap_addr_t)
    (p : mesh_packet_t) (handle version : Nat) (data : List Nat) :
    signature_at cfg (built cfg provider p handle version data).payload 0 := by
  have h2 : (built cfg provider p handle version data).payload[0 + 2]? =
      some (cfg.MESH_UUID % 256) := rfl
  have h3 : (built cfg provider p handle version data).payload[0 + 2 + 1]? =
      some (cfg.MESH_UUID / 256) := by simp [built]
  exact ⟨rfl, by rw [rd16_ok h2 h3, Nat.mod_add_div]⟩

theorem built_no_additional_data (cfg : Config) (provider : nrf_code × ble_gap_addr_t)
    (p : mesh_packet_t) (handle version : Nat) (data : List Nat) :
    mesh_packet_has_additional_data cfg (some (built cfg provider p handle version data)) =
      .ok false := by
  have h0 : (built cfg provider p handle version data).payload[0]? =
      some (MESH_PACKET_ADV_OVERHEAD + data.length) := rfl
  have hlen : (built cfg provider p handle version data).header.length =
      MESH_PACKET_OVERHEAD + data.length := rfl
  have hb0 : ((0 : Nat) : Int) <
      ((built cfg provider p handle version data).header.length : Int) - 7 := by
    rw [hlen]
    simp only [MESH_PACKET_OVERHEAD, BLE_GAP_ADDR_LEN, MESH_PACKET_ADV_OVERHEAD]
    push_cast
    omega
  have hb1 : ¬ ((0 + (MESH_PACKET_ADV_OVERHEAD + data.length + 1) * sizeof_mesh_adv_data_t :
      Nat) : Int) < ((built cfg provider p handle version data).header.length : Int) - 7 := by
    rw [hlen]
    simp only [MESH_PACKET_OVERHEAD, BLE_GAP_ADDR_LEN, MESH_PACKET_ADV_OVERHEAD,
      sizeof_mesh_adv_data_t_eq]
    push_cast
    omega
  simp only [mesh_packet_has_additional_data]
  rw [loop_has_step, if_pos hb0,
    signature_differs_of_signature cfg _ 0 (built_signature cfg provider p handle version data)]
  simp only [bind_ok, Bool.false_eq_true, if_false, rd_ok h0]
  rw [loop_has_step, if_neg hb1]
  rfl

/-- C16: after a successful `mesh_packet_build` the declared payload length,
the header length minus the 6 address bytes, is 1 plus the declared length
of the record at offset 0, that record carries the signature, and
`mesh_packet_has_additional_data` returns false. -/
theorem mesh_packet_build_single_record (cfg : Config) (provider : nrf_code × ble_gap_addr_t)
    (p : mesh_packet_t) (handle version : Nat) (data : List Nat)
    (hpay : p.payload.length = BLE_ADV_PACKET_PAYLOAD_MAX_LENGTH)
    (hn : data.length ≤ RBC_MESH_VALUE_MAX_LEN)
    (htype : cfg.MESH_ADV_DATA_TYPE < 256) (huuid : cfg.MESH_UUID < 65536)
    (hh : handle < 65536) (hv : version < 65536) :
    ∃ q L, mesh_packet_build cfg provider (some p) handle version (some data) data.length =
        .ok (NRF_SUCCESS, some q) ∧
      q.payload[0]? = some L ∧
      L = MESH_PACKET_ADV_OVERHEAD + data.length ∧
      signature_at cfg q.payload 0 ∧
      q.header.length - BLE_GAP_ADDR_LEN = 1 + L ∧
      mesh_packet_has_additional_data cfg (some q) = .ok false := by
  refine ⟨built cfg provider p handle version data, MESH_PACKET_ADV_OVERHEAD + data.length,
    mesh_packet_build_eq cfg provider p handle version data hpay hn htype huuid hh hv,
    rfl, rfl, built_signature cfg provider p handle version data, ?_,
    built_no_additional_data cfg provider p handle version data⟩
  simp only [built, MESH_PACKET_OVERHEAD, BLE_GAP_ADDR_LEN, MESH_PACKET_ADV_OVERHEAD]
  omega

/-- Witness of C16: the sample packet, handle `0x1234`, version 5, three
data bytes. -/
theorem mesh_packet_build_single_record_witness :
    (sample_packet.payload.length = BLE_ADV_PACKET_PAYLOAD_MAX_LENGTH ∧
      [9, 8, 7].length ≤ RBC_MESH_VALUE_MAX_LEN ∧
      sample_cfg.MESH_ADV_DATA_TYPE < 256 ∧ sample_cfg.MESH_UUID < 65536 ∧
      0x1234 < 65536 ∧ 5 < 65536) ∧
    ∃ q L, mesh_packet_build sample_cfg sample_provider (some sample_packet) 0x1234 5
          (some [9, 8, 7]) 3 = .ok (NRF_SUCCESS, some q) ∧
      q.payload[0]? = some L ∧
      L = 7 + 3 ∧
      signature_at sample_cfg q.payload 0 ∧
      q.header.length - 6 = 1 + L ∧
      mesh_packet_has_additional_data sample_cfg (some q) = .ok false :=
  ⟨by decide,
    mesh_packet_build_single_record sample_cfg sample_provider sample_packet 0x1234 5 [9, 8, 7]
      (by decide) (by decide) (by decide) (by decide) (by decide) (by decide)⟩

/-! ## Chains with more than one record -/

/-- C11 fails on the code: in the sample chain a foreign record of length
byte 2 sits at offset 0 and a valid application record of handle `0x1234` at
offset `1 + 2`, all inside the payload, yet the locator returns `NULL` and
`mesh_packet_handle_get` the invalid handle.  The cursor is a
`mesh_adv_data_t*`, so skipping the first record moves it by `(2 + 1) * 31`
bytes instead of `2 + 1`. -/
theorem mesh_packet_adv_data_get_skips_chain :
    chain_packet.payload.length = BLE_ADV_PACKET_PAYLOAD_MAX_LENGTH ∧
    chain_packet.payload[0]? = some 2 ∧
    ¬ signature_at sample_cfg chain_packet.payload 0 ∧
    signature_at sample_cfg chain_packet.payload (1 + 2) ∧
    chain_packet.payload[1 + 2]? = some 10 ∧
    10 ≤ MESH_PACKET_ADV_OVERHEAD + RBC_MESH_VALUE_MAX_LEN ∧
    (1 + 2) + 1 + 10 ≤ BLE_ADV_PACKET_PAYLOAD_MAX_LENGTH ∧
    rd16 chain_packet.payload ((1 + 2) + 4) = .ok 0x1234 ∧
    0 + (2 + 1) * sizeof_mesh_adv_data_t = 93 ∧
    mesh_packet_adv_data_get sample_cfg (some chain_packet) = .ok none ∧
    mesh_packet_adv_data_get sample_cfg (some chain_packet) ≠ .ok (some (1 + 2)) ∧
    mesh_packet_handle_get sample_cfg (some chain_packet) =
      .ok sample_cfg.RBC_MESH_INVALID_HANDLE ∧
    mesh_packet_handle_get sample_cfg (some chain_packet) ≠ .ok 0x1234 := by
  decide

/-- C13 fails on the code: on the sample chain, with foreign records before
and after the application record, `mesh_packet_take_ownership` stamps the
local address and leaves the payload and the header length as they were;
the foreign records stay and `mesh_packet_has_additional_data` is still
true.  The sanitizer finds no record, for the reason given at C11, and its
status is not looked at. -/
theorem mesh_packet_take_ownership_keeps_foreign_data :
    mesh_packet_has_additional_data sample_cfg (some chain_packet) = .ok true ∧
    mesh_packet_adv_data_sanitize sample_cfg (some chain_packet) =
      .ok (NRF_ERROR_INVALID_DATA, some chain_packet) ∧
    mesh_packet_take_ownership sample_cfg sample_provider (some chain_packet) =
      .ok (some chain_packet_owned) ∧
    chain_packet_owned.payload = chain_packet.payload ∧
    chain_packet_owned.payload[0]? = some 2 ∧
    ¬ signature_at sample_cfg chain_packet_owned.payload 0 ∧
    chain_packet_owned.header.length = 6 + 17 ∧
    chain_packet_owned.header.length ≠ 6 + 1 + 10 ∧
    mesh_packet_has_additional_data sample_cfg (some chain_packet_owned) = .ok true := by
  decide

/-- C19 fails on the code: in the sample packet the application record at
offset 0 is followed, inside the 11 declared payload bytes, by a foreign
record at offset 8, and `mesh_packet_has_additional_data` returns false:
after the first record the cursor moves by `(7 + 1) * 31` bytes, past the
bound.  It returns true only for a foreign record at offset 0.  A chain of
one record on the single declared byte is not looked at either, the bound
being `header.length - 7`. -/
theorem mesh_packet_has_additional_data_misses_record :
    trailing_packet.payload.length = BLE_ADV_PACKET_PAYLOAD_MAX_LENGTH ∧
    trailing_packet.header.length - BLE_GAP_ADDR_LEN = (1 + 7) + (1 + 2) ∧
    signature_at sample_cfg trailing_packet.payload 0 ∧
    trailing_packet.payload[0]? = some 7 ∧
    trailing_packet.payload[1 + 7]? = some 2 ∧
    ¬ signature_at sample_cfg trailing_packet.payload (1 + 7) ∧
    mesh_packet_has_additional_data sample_cfg (some trailing_packet) = .ok false ∧
    mesh_packet_has_additional_data sample_cfg (some chain_packet) = .ok true ∧
    one_byte_packet.header.length - BLE_GAP_ADDR_LEN = 1 ∧
    one_byte_packet.payload[0]? = some 0 ∧
    ¬ signature_at sample_cfg one_byte_packet.payload 0 ∧
    mesh_packet_has_additional_data sample_cfg (some one_byte_packet) = .ok false := by
  decide

end MeshPacket
